import Mathlib

/-!
# Thoth chat client: peer-session signalling

A shallow embedding of `ThothChatClient` (`src/web/static/chat-client.js`).

Modelling conventions.

* The client object is the record `Client`.  Its three collections keep the
  insertion order of the JavaScript `Map` / `Set` they stand for.
* An `RTCPeerConnection` is the record `PeerConnection`.  Object identity is the
  field `id`, drawn from the counter `nextId` at construction.  The connection
  objects that the map `peerConnections` no longer refers to (closed and deleted,
  or displaced by a later `set` under the same key) are kept in `detached`, so
  that what happened to them stays observable.
* Every handler runs to completion.  The outcome of each awaited browser call
  (`createOffer`, `createAnswer`, `setLocalDescription`, `setRemoteDescription`,
  `addIceCandidate`) is an input, the record `Browser`: `Except.error m` stands
  for a rejected promise whose `error.message` is `m`.
* `ws.send` is the list `sent`; `addSystemMessage` / `displayMessage` append to
  `messages`; the remote video containers of the DOM are `remoteVideos`;
  `setTimeout` appends to `timers`, and a timer runs when `fireTimer` delivers it.
  Console output and the re-rendering done by `updateUsersList` (a function of
  `onlineUsers`, `broadcastingUsers`, `username`, `localStream` only) carry no state.
* The asynchronous calls that a loop issues without awaiting them (`renegotiateConnection`
  in `addTracksToExistingConnections`, `startVideoCall` in the sweep) run one after the
  other here; what is stated of the envelopes of such a loop does not depend on their order.
-/

namespace Thoth

/-! ## Data model -/

abbrev Track := String
abbrev Sdp := String
abbrev Candidate := String

/-- Values of `RTCPeerConnection.connectionState`. -/
inductive ConnectionState
  | new | connecting | connected | disconnected | failed | closed
deriving DecidableEq, Repr

/-- One `RTCPeerConnection` object together with the `username` captured by the
handlers that `createPeerConnection` installs on it. -/
structure PeerConnection where
  id : Nat
  peer : String
  senders : List Track
  localDescription : Option Sdp
  remoteDescription : Option Sdp
  iceCandidates : List Candidate
  connectionState : ConnectionState
deriving DecidableEq, Repr

/-- The object built by `sendWebRTCMessage` and handed to `ws.send`. -/
structure Envelope where
  type : String
  target_user : String
  webrtc_data : String
deriving DecidableEq, Repr

/-- A child of `messagesContainer`. -/
inductive MessageEl
  | system (text : String)
  | chat (username content : String)
deriving DecidableEq, Repr

/-- A callback registered with `setTimeout`: the delayed `startVideoCall(target)` of
`user_joined` / `users_list`, or the sweep over `onlineUsers` of `startVideo`. -/
inductive Timer
  | call (target : String)
  | sweep
deriving DecidableEq, Repr

/-- The fields of `ThothChatClient`, followed by the observable environment. -/
structure Client where
  username : String
  room : String
  isConnected : Bool
  ws : Bool
  localStream : Option (List Track)
  peerConnections : List (String × PeerConnection)
  onlineUsers : List String
  broadcastingUsers : List String
  detached : List PeerConnection
  nextId : Nat
  sent : List Envelope
  messages : List MessageEl
  remoteVideos : List String
  timers : List Timer
deriving DecidableEq, Repr

/-- The state left by the constructor. -/
def Client.init : Client :=
  { username := "", room := "", isConnected := false, ws := false, localStream := none,
    peerConnections := [], onlineUsers := [], broadcastingUsers := [], detached := [],
    nextId := 0, sent := [], messages := [], remoteVideos := [], timers := [] }

/-- Outcomes of the browser calls awaited during one handler run. -/
structure Browser where
  createOffer : Except String Sdp
  createAnswer : Except String Sdp
  setLocalDescription : Except String Unit
  setRemoteDescription : Except String Unit
  addIceCandidate : Except String Unit

/-- A browser in which every call succeeds. -/
def Browser.ok (offer answer : Sdp) : Browser :=
  { createOffer := .ok offer, createAnswer := .ok answer, setLocalDescription := .ok (),
    setRemoteDescription := .ok (), addIceCandidate := .ok () }

/-- The result of `JSON.parse(data.content)` in the `users_list` branch: the parse throws,
or yields a value without `forEach`, or yields an array of names. -/
inductive UsersContent
  | invalid
  | notArray
  | array (users : List String)
deriving DecidableEq, Repr

/-- An inbound message, by `data.type`.  Any other type is `other`. -/
inductive Message
  | chat (username content : String)
  | user_joined (username : String)
  | user_left (username : String)
  | users_list (content : UsersContent)
  | webrtc_offer (username : String) (offer : Sdp)
  | webrtc_answer (username : String) (answer : Sdp)
  | webrtc_candidate (username : String) (candidate : Candidate)
  | other
deriving DecidableEq, Repr

/-! ## `Map` and `Set` primitives -/

/-- JavaScript `Map.prototype.get`. -/
def mapGet : List (String × PeerConnection) → String → Option PeerConnection
  | [], _ => none
  | (k, v) :: rest, key => if k = key then some v else mapGet rest key

/-- JavaScript `Map.prototype.has`. -/
def mapHas (m : List (String × PeerConnection)) (key : String) : Bool :=
  (mapGet m key).isSome

/-- JavaScript `Map.prototype.set`: an existing key keeps its position, a new key goes last. -/
def mapSet : List (String × PeerConnection) → String → PeerConnection →
    List (String × PeerConnection)
  | [], key, v => [(key, v)]
  | (k, w) :: rest, key, v =>
    if k = key then (k, v) :: rest else (k, w) :: mapSet rest key v

/-- JavaScript `Map.prototype.delete`: no entry under `key` remains (a `Map` holds at most
one). -/
def mapDelete : List (String × PeerConnection) → String → List (String × PeerConnection)
  | [], _ => []
  | (k, v) :: rest, key =>
    if k = key then mapDelete rest key else (k, v) :: mapDelete rest key

/-- JavaScript `Set.prototype.add`. -/
def setAdd (s : List String) (x : String) : List String :=
  if x ∈ s then s else s ++ [x]

/-- JavaScript `Set.prototype.delete`: no occurrence of `x` remains (a `Set` holds at most
one). -/
def setDelete (s : List String) (x : String) : List String :=
  s.filter (fun y => decide (y ≠ x))

/-! ## Methods of `ThothChatClient` -/

/-- Method `addSystemMessage(text)`. -/
def addSystemMessage (s : Client) (text : String) : Client :=
  { s with messages := s.messages ++ [MessageEl.system text] }

/-- Method `displayMessage(message)`. -/
def displayMessage (s : Client) (username content : String) : Client :=
  { s with messages := s.messages ++ [MessageEl.chat username content] }

/-- Method `addUser(username)`. -/
def addUser (s : Client) (username : String) : Client :=
  { s with onlineUsers := setAdd s.onlineUsers username }

/-- Method `removeUser(username)`. -/
def removeUser (s : Client) (username : String) : Client :=
  { s with onlineUsers := setDelete s.onlineUsers username,
           broadcastingUsers := setDelete s.broadcastingUsers username }

/-- The connection object that `new RTCPeerConnection(this.rtcConfig)` followed by the
`addTrack` loop over `this.localStream` yields inside `createPeerConnection`. -/
def newPeerConnection (s : Client) (username : String) : PeerConnection :=
  { id := s.nextId, peer := username, senders := s.localStream.getD [],
    localDescription := none, remoteDescription := none, iceCandidates := [],
    connectionState := ConnectionState.new }

/-- Method `createPeerConnection(username)`: builds a connection, stores it under `username`
and returns it.  A connection already stored under `username` loses its place in the
map and is otherwise left as it is. -/
def createPeerConnection (s : Client) (username : String) : Client × PeerConnection :=
  let pc := newPeerConnection s username
  ({ s with peerConnections := mapSet s.peerConnections username pc,
            detached := s.detached ++ (mapGet s.peerConnections username).toList,
            nextId := s.nextId + 1 }, pc)

/-- Method `sendWebRTCMessage(type, targetUser, data)`. -/
def sendWebRTCMessage (s : Client) (type targetUser data : String) : Client :=
  if s.isConnected then
    { s with sent := s.sent ++ [{ type := type, target_user := targetUser, webrtc_data := data }] }
  else s

/-- Writes back the fields of a connection object held in the map under `username`. -/
def storePc (s : Client) (username : String) (pc : PeerConnection) : Client :=
  { s with peerConnections := mapSet s.peerConnections username pc }

/-- Method `handleWebRTCOffer(data)`. -/
def handleWebRTCOffer (b : Browser) (s : Client) (username : String) (offer : Sdp) : Client :=
  let (s1, pc) := createPeerConnection s username
  let fail := fun (t : Client) (m : String) =>
    addSystemMessage t ("Ошибка видео-звонка с " ++ username ++ ": " ++ m)
  match b.setRemoteDescription with
  | .error m => fail s1 m
  | .ok _ =>
    let pc1 := { pc with remoteDescription := some offer }
    let s2 := storePc s1 username pc1
    match b.createAnswer with
    | .error m => fail s2 m
    | .ok answer =>
      match b.setLocalDescription with
      | .error m => fail s2 m
      | .ok _ =>
        let s3 := storePc s2 username { pc1 with localDescription := some answer }
        sendWebRTCMessage s3 "webrtc_answer" username answer

/-- Method `handleWebRTCAnswer(data)`. -/
def handleWebRTCAnswer (b : Browser) (s : Client) (username : String) (answer : Sdp) : Client :=
  match mapGet s.peerConnections username with
  | some pc =>
    match b.setRemoteDescription with
    | .ok _ => storePc s username { pc with remoteDescription := some answer }
    | .error m =>
      addSystemMessage s ("Ошибка при обработке ответа от " ++ username ++ ": " ++ m)
  | none => s

/-- Method `handleWebRTCCandidate(data)`. -/
def handleWebRTCCandidate (b : Browser) (s : Client) (username : String)
    (candidate : Candidate) : Client :=
  match mapGet s.peerConnections username with
  | some pc =>
    if pc.remoteDescription.isSome then
      match b.addIceCandidate with
      | .ok _ => storePc s username { pc with iceCandidates := pc.iceCandidates ++ [candidate] }
      | .error _ => s
    else s
  | none => s

/-- Method `startVideoCall(targetUsername)`. -/
def startVideoCall (b : Browser) (s : Client) (targetUsername : String) : Client :=
  if targetUsername = s.username then s
  else if mapHas s.peerConnections targetUsername then s
  else
    let (s1, pc) := createPeerConnection s targetUsername
    let fail := fun (m : String) =>
      addSystemMessage s1 ("Ошибка при звонке " ++ targetUsername ++ ": " ++ m)
    match b.createOffer with
    | .error m => fail m
    | .ok offer =>
      match b.setLocalDescription with
      | .error m => fail m
      | .ok _ =>
        let s2 := storePc s1 targetUsername { pc with localDescription := some offer }
        sendWebRTCMessage s2 "webrtc_offer" targetUsername offer

/-- Browser call `pc.close()`. -/
def PeerConnection.close (pc : PeerConnection) : PeerConnection :=
  { pc with connectionState := ConnectionState.closed }

/-- Method `closePeerConnection(username)`. -/
def closePeerConnection (s : Client) (username : String) : Client :=
  match mapGet s.peerConnections username with
  | some pc =>
    { s with peerConnections := mapDelete s.peerConnections username,
             detached := s.detached ++ [pc.close],
             remoteVideos := setDelete s.remoteVideos username,
             broadcastingUsers := setDelete s.broadcastingUsers username }
  | none => s

/-- The `users_list` branch of `handleMessage`. -/
def handleUsersList (s : Client) (content : UsersContent) : Client :=
  match content with
  | .invalid => s
  | .notArray => { s with onlineUsers := [] }
  | .array users =>
    let s1 := { s with onlineUsers := users.foldl setAdd [] }
    if s1.localStream.isSome then
      { s1 with timers := s1.timers ++
          (users.filter (fun u =>
            decide (u ≠ s1.username) && !mapHas s1.peerConnections u)).map Timer.call }
    else s1

/-- Method `handleMessage(data)`. -/
def handleMessage (b : Browser) (s : Client) (data : Message) : Client :=
  match data with
  | .chat username content => displayMessage s username content
  | .user_joined username =>
    let s1 := addSystemMessage (addUser s username) (username ++ " присоединился к чату")
    if s1.localStream.isSome && decide (username ≠ s1.username) then
      { s1 with timers := s1.timers ++ [Timer.call username] }
    else s1
  | .user_left username =>
    closePeerConnection
      (addSystemMessage (removeUser s username) (username ++ " покинул чат")) username
  | .users_list content => handleUsersList s content
  | .webrtc_offer username offer => handleWebRTCOffer b s username offer
  | .webrtc_answer username answer => handleWebRTCAnswer b s username answer
  | .webrtc_candidate username candidate => handleWebRTCCandidate b s username candidate
  | .other => s

/-- The callback of a timer.  `bs u` gives the browser outcomes met by the
`startVideoCall(u)` that the callback issues. -/
def runTimer (bs : String → Browser) (s : Client) (t : Timer) : Client :=
  match t with
  | .call target => startVideoCall (bs target) s target
  | .sweep =>
    s.onlineUsers.foldl
      (fun acc u =>
        if decide (u ≠ acc.username) && !mapHas acc.peerConnections u then
          startVideoCall (bs u) acc u
        else acc) s

/-- Delivery of the pending timer at position `i`: it leaves the queue and its callback runs. -/
def fireTimer (bs : String → Browser) (s : Client) (i : Nat) : Client :=
  match s.timers.get? i with
  | some t => runTimer bs { s with timers := s.timers.eraseIdx i } t
  | none => s

/-- Handler `pc.ontrack` of the connection that `createPeerConnection(username)` built:
`displayRemoteVideo` makes sure a video container for `username` exists, and the peer is
marked broadcasting. -/
def ontrack (s : Client) (username : String) : Client :=
  { s with remoteVideos := setAdd s.remoteVideos username,
           broadcastingUsers := setAdd s.broadcastingUsers username }

/-- Handler `pc.onicecandidate` of the connection built for `username`; `event.candidate` is null
in the event that ends gathering. -/
def onicecandidate (s : Client) (username : String) (candidate : Option Candidate) : Client :=
  match candidate with
  | some c => sendWebRTCMessage s "webrtc_candidate" username c
  | none => s

/-- Handler `pc.onconnectionstatechange` of the connection built for `username`, fired when
`pc.connectionState` reads `state`. -/
def onconnectionstatechange (s : Client) (username : String) (state : ConnectionState) :
    Client :=
  if state = ConnectionState.connected then
    let s1 := addSystemMessage s ("Видео-соединение с " ++ username ++ " установлено")
    { s1 with broadcastingUsers := setAdd s1.broadcastingUsers username }
  else if state = ConnectionState.disconnected ∨ state = ConnectionState.failed then
    let s1 := addSystemMessage s ("Видео-соединение с " ++ username ++ " потеряно")
    closePeerConnection
      { s1 with broadcastingUsers := setDelete s1.broadcastingUsers username } username
  else s

/-- Method `renegotiateConnection(username, pc)`. -/
def renegotiateConnection (b : Browser) (s : Client) (username : String)
    (pc : PeerConnection) : Client :=
  match b.createOffer with
  | .error _ => s
  | .ok offer =>
    match b.setLocalDescription with
    | .error _ => s
    | .ok _ =>
      sendWebRTCMessage (storePc s username { pc with localDescription := some offer })
        "webrtc_offer" username offer

/-- Method `addTracksToExistingConnections()`.  `bs u` gives the browser outcomes met by the
renegotiation with `u`. -/
def addTracksToExistingConnections (bs : String → Browser) (s : Client) : Client :=
  match s.localStream with
  | none => s
  | some tracks =>
    s.peerConnections.foldl
      (fun acc e =>
        let pc := { e.2 with senders := tracks }
        renegotiateConnection (bs e.1) (storePc acc e.1 pc) e.1 pc) s

/-- Method `stopVideo()`. -/
def stopVideo (s : Client) : Client :=
  addSystemMessage
    { s with localStream := none,
             broadcastingUsers := setDelete s.broadcastingUsers s.username,
             detached := s.detached ++ s.peerConnections.map (fun e => e.2.close),
             peerConnections := [],
             remoteVideos := [] }
    "Демонстрация экрана остановлена"

/-- The error a rejected `getDisplayMedia` / `getUserMedia` carries. -/
structure MediaError where
  name : String
  message : String
deriving DecidableEq, Repr

/-- Method `startVideo()`.  `media` is the outcome of the two capture requests: the tracks of the
combined stream, or the error that rejected one of them. -/
def startVideo (bs : String → Browser) (s : Client) (media : Except MediaError (List Track)) :
    Client :=
  match media with
  | .ok tracks =>
    let s1 := { s with localStream := some tracks,
                       broadcastingUsers := setAdd s.broadcastingUsers s.username }
    let s2 := addSystemMessage s1
      "Демонстрация экрана включена. Кликните на пользователя для звонка."
    let s3 := addTracksToExistingConnections bs s2
    { s3 with timers := s3.timers ++ [Timer.sweep] }
  | .error e =>
    addSystemMessage s ("Не удалось получить доступ: " ++
      (if e.name = "NotAllowedError" then
        "Доступ запрещен. Разрешите доступ к экрану и микрофону."
      else if e.name = "NotFoundError" then "Устройства не найдены."
      else if e.name = "NotSupportedError" then "Браузер не поддерживает функцию."
      else e.message))

/-- Method `toggleVideo()`. -/
def toggleVideo (bs : String → Browser) (s : Client) (media : Except MediaError (List Track)) :
    Client :=
  if s.localStream.isSome then stopVideo s else startVideo bs s media

/-- Method `onDisconnected()`. -/
def onDisconnected (s : Client) : Client :=
  let s1 := addSystemMessage { s with isConnected := false, ws := false } "Соединение потеряно"
  { s1 with onlineUsers := [], broadcastingUsers := [],
            detached := s1.detached ++ s1.peerConnections.map (fun e => e.2.close),
            peerConnections := [] }

/-- The browser moves a connection built for `username` to `state` and fires its
`connectionstatechange` event: the handler then reads `state` from `pc.connectionState`.
When the map holds a connection for `username`, that connection is the one that changes
state.  When it holds none, the event comes from a connection that has left the map without
being closed, and its handler runs all the same. -/
def connectionStateChanged (s : Client) (username : String) (state : ConnectionState) :
    Client :=
  match mapGet s.peerConnections username with
  | some pc =>
    onconnectionstatechange (storePc s username { pc with connectionState := state })
      username state
  | none => onconnectionstatechange s username state

/-- The callback that the sweep of `startVideo` applies to each member of `onlineUsers`. -/
def sweepStep (bs : String → Browser) (acc : Client) (u : String) : Client :=
  if decide (u ≠ acc.username) && !mapHas acc.peerConnections u then
    startVideoCall (bs u) acc u
  else acc

/-- The callback that `addTracksToExistingConnections` applies to each entry of the map,
for local tracks `tracks`. -/
def renegotiateStep (bs : String → Browser) (tracks : List Track) (acc : Client)
    (e : String × PeerConnection) : Client :=
  renegotiateConnection (bs e.1) (storePc acc e.1 { e.2 with senders := tracks }) e.1
    { e.2 with senders := tracks }

/-- The offer that `renegotiateConnection` gets to send: the one created, when both
`createOffer` and `setLocalDescription` succeed. -/
def renegotiationOffer (b : Browser) : Option Sdp :=
  match b.createOffer with
  | .error _ => none
  | .ok offer =>
    match b.setLocalDescription with
    | .error _ => none
    | .ok _ => some offer

/-- The fields of a connection after the callback of `addTracksToExistingConnections`:
the senders are the local tracks, and the local description is the offer if one was set. -/
def renegotiated (b : Browser) (tracks : List Track) (pc : PeerConnection) : PeerConnection :=
  match renegotiationOffer b with
  | some offer => { pc with senders := tracks, localDescription := some offer }
  | none => { pc with senders := tracks }

/-! ## Predicates used in the statements -/

/-- Peer `Q` is in `s2` what it was in `s1`: same entry in `peerConnections` (present or
absent, and the same connection object with the same fields), same membership in
`onlineUsers` and in `broadcastingUsers`. -/
def PeerUntouched (Q : String) (s1 s2 : Client) : Prop :=
  mapGet s2.peerConnections Q = mapGet s1.peerConnections Q ∧
  (Q ∈ s2.onlineUsers ↔ Q ∈ s1.onlineUsers) ∧
  (Q ∈ s2.broadcastingUsers ↔ Q ∈ s1.broadcastingUsers)

instance (Q : String) (s1 s2 : Client) : Decidable (PeerUntouched Q s1 s2) := by
  unfold PeerUntouched
  infer_instance

/-! ## Concrete states -/

/-- A client connected as `alice`, with no local media. -/
def alice : Client :=
  { Client.init with username := "alice", room := "general", isConnected := true, ws := true,
                     onlineUsers := ["alice"] }

/-- The client `alice` while sharing two local tracks. -/
def aliceLive : Client :=
  { alice with localStream := some ["video", "audio"], broadcastingUsers := ["alice"] }

/-- The client `alice` after `startVideoCall("bob")`: an offer to `bob` is outstanding. -/
def aliceCallingBob : Client :=
  startVideoCall (Browser.ok "offerA" "answerA") aliceLive "bob"

/-- The connection that `aliceCallingBob` holds for `bob`. -/
def bobFirst : PeerConnection :=
  { id := 0, peer := "bob", senders := ["video", "audio"], localDescription := some "offerA",
    remoteDescription := none, iceCandidates := [], connectionState := ConnectionState.new }

/-- The client `alice` with `bob` online and marked broadcasting, holding `bobFirst`. -/
def aliceWatchingBob : Client :=
  { aliceCallingBob with onlineUsers := ["alice", "bob"],
                         broadcastingUsers := ["alice", "bob"] }

/-- A browser whose `createOffer` is rejected with message `m`. -/
def Browser.offerFails (m : String) : Browser :=
  { Browser.ok "" "" with createOffer := Except.error m }

/-- A browser whose `setRemoteDescription` is rejected with message `m`. -/
def Browser.remoteFails (m : String) : Browser :=
  { Browser.ok "" "" with setRemoteDescription := Except.error m }

/-- The client `alice` after it has started sharing, accepted an offer from `bob`, and seen
the connection for `bob` reach `connected`. -/
def aliceConnectedToBob : Client :=
  connectionStateChanged
    (handleMessage (Browser.ok "offerA" "answerA")
      (startVideo (fun _ => Browser.ok "offerA" "answerA") alice (Except.ok ["video", "audio"]))
      (Message.webrtc_offer "bob" "offerB"))
    "bob" ConnectionState.connected

/-- The client `alice`, disconnected, holding a session for `bob`: while sharing it handled
`user_joined` for `bob`, then stopped sharing and lost the relay, and the pending call timer
fired. -/
def aliceOfflineWithBob : Client :=
  fireTimer (fun _ => Browser.ok "offerA" "answerA")
    (onDisconnected (stopVideo
      (handleMessage (Browser.ok "offerA" "answerA") aliceLive (Message.user_joined "bob")))) 0

/-! ## Lemmas on the `Map` and `Set` primitives -/

theorem mapGet_mapSet_self (m : List (String × PeerConnection)) (k : String)
    (v : PeerConnection) : mapGet (mapSet m k v) k = some v := by
  induction m with
  | nil => simp [mapSet, mapGet]
  | cons e rest ih =>
    obtain ⟨k', w⟩ := e
    by_cases h : k' = k
    · simp [mapSet, mapGet, h]
    · simp [mapSet, mapGet, h, ih]

theorem mapGet_mapSet_ne (m : List (String × PeerConnection)) (k q : String)
    (v : PeerConnection) (h : q ≠ k) : mapGet (mapSet m k v) q = mapGet m q := by
  have hkq : ¬ k = q := fun e => h e.symm
  induction m with
  | nil => simp [mapSet, mapGet, hkq]
  | cons e rest ih =>
    obtain ⟨k', w⟩ := e
    by_cases hk : k' = k
    · subst hk
      simp [mapSet, mapGet, hkq]
    · by_cases hq : k' = q
      · subst hq
        simp [mapSet, mapGet, hk]
      · simp [mapSet, mapGet, hk, hq, ih]

theorem mapSet_mapSet (m : List (String × PeerConnection)) (k : String)
    (v w : PeerConnection) : mapSet (mapSet m k v) k w = mapSet m k w := by
  induction m with
  | nil => simp [mapSet]
  | cons e rest ih =>
    obtain ⟨k', u⟩ := e
    by_cases h : k' = k
    · simp [mapSet, h]
    · simp [mapSet, h, ih]

theorem length_mapSet_of_has (m : List (String × PeerConnection)) (k : String)
    (v : PeerConnection) (h : mapHas m k = true) : (mapSet m k v).length = m.length := by
  induction m with
  | nil => simp [mapHas, mapGet] at h
  | cons e rest ih =>
    obtain ⟨k', u⟩ := e
    by_cases hk : k' = k
    · simp [mapSet, hk]
    · have h' : mapHas rest k = true := by simpa [mapHas, mapGet, hk] using h
      simp [mapSet, hk, ih h']

theorem mapGet_mapDelete_self (m : List (String × PeerConnection)) (k : String) :
    mapGet (mapDelete m k) k = none := by
  induction m with
  | nil => simp [mapDelete, mapGet]
  | cons e rest ih =>
    obtain ⟨k', u⟩ := e
    by_cases hk : k' = k
    · simp [mapDelete, hk, ih]
    · simp [mapDelete, hk, mapGet, ih]

theorem mapGet_mapDelete_ne (m : List (String × PeerConnection)) (k q : String)
    (h : q ≠ k) : mapGet (mapDelete m k) q = mapGet m q := by
  have hkq : ¬ k = q := fun e => h e.symm
  induction m with
  | nil => simp [mapDelete, mapGet]
  | cons e rest ih =>
    obtain ⟨k', u⟩ := e
    by_cases hk : k' = k
    · subst hk
      simp [mapDelete, mapGet, hkq, ih]
    · by_cases hq : k' = q
      · subst hq
        simp [mapDelete, mapGet, hk]
      · simp [mapDelete, mapGet, hk, hq, ih]

theorem mapDelete_of_mapGet_none (m : List (String × PeerConnection)) (k : String)
    (h : mapGet m k = none) : mapDelete m k = m := by
  induction m with
  | nil => simp [mapDelete]
  | cons e rest ih =>
    obtain ⟨k', u⟩ := e
    by_cases hk : k' = k
    · simp [mapGet, hk] at h
    · have h' : mapGet rest k = none := by simpa [mapGet, hk] using h
      simp [mapDelete, hk, ih h']

theorem mem_setDelete (s : List String) (x y : String) :
    y ∈ setDelete s x ↔ y ∈ s ∧ y ≠ x := by
  simp [setDelete, List.mem_filter]

theorem not_mem_setDelete_self (s : List String) (x : String) : x ∉ setDelete s x := by
  simp [mem_setDelete]

theorem setDelete_setDelete (s : List String) (x : String) :
    setDelete (setDelete s x) x = setDelete s x := by
  simp [setDelete, List.filter_filter]

theorem setDelete_of_not_mem (s : List String) (x : String) (h : x ∉ s) :
    setDelete s x = s := by
  simp only [setDelete, List.filter_eq_self]
  intro y hy
  have : y ≠ x := fun e => h (e ▸ hy)
  simpa using this

theorem mem_setAdd (s : List String) (x y : String) : y ∈ setAdd s x ↔ y ∈ s ∨ y = x := by
  unfold setAdd
  split
  · constructor
    · exact fun h => Or.inl h
    · rintro (h | h)
      · exact h
      · subst h; assumption
  · simp

theorem mem_foldl_setAdd (users acc : List String) (u : String) :
    u ∈ users.foldl setAdd acc ↔ u ∈ acc ∨ u ∈ users := by
  induction users generalizing acc with
  | nil => simp
  | cons x rest ih =>
    simp only [List.foldl_cons, ih, mem_setAdd, List.mem_cons]
    tauto

/-! ## Lemmas on the handlers -/

theorem createPeerConnection_fst (s : Client) (P : String) :
    (createPeerConnection s P).1 =
      { s with peerConnections := mapSet s.peerConnections P (newPeerConnection s P),
               detached := s.detached ++ (mapGet s.peerConnections P).toList,
               nextId := s.nextId + 1 } := rfl

theorem createPeerConnection_snd (s : Client) (P : String) :
    (createPeerConnection s P).2 = newPeerConnection s P := rfl

theorem sendWebRTCMessage_peerConnections (s : Client) (ty target data : String) :
    (sendWebRTCMessage s ty target data).peerConnections = s.peerConnections := by
  unfold sendWebRTCMessage; split <;> rfl

theorem sendWebRTCMessage_messages (s : Client) (ty target data : String) :
    (sendWebRTCMessage s ty target data).messages = s.messages := by
  unfold sendWebRTCMessage; split <;> rfl

theorem sendWebRTCMessage_detached (s : Client) (ty target data : String) :
    (sendWebRTCMessage s ty target data).detached = s.detached := by
  unfold sendWebRTCMessage; split <;> rfl

/-- Whatever the browser outcomes, `handleWebRTCOffer` leaves under the sender's name the
connection it has just constructed: new identity, not closed. -/
theorem handleWebRTCOffer_peerConnections (b : Browser) (s : Client) (P : String) (offer : Sdp) :
    ∃ pc : PeerConnection, pc.id = s.nextId ∧ pc.connectionState = ConnectionState.new ∧
      pc.iceCandidates = [] ∧
      (handleWebRTCOffer b s P offer).peerConnections = mapSet s.peerConnections P pc := by
  unfold handleWebRTCOffer
  simp only [createPeerConnection_fst, createPeerConnection_snd]
  cases b.setRemoteDescription with
  | error m => exact ⟨newPeerConnection s P, rfl, rfl, rfl, rfl⟩
  | ok _ =>
    cases b.createAnswer with
    | error m =>
      exact ⟨{ newPeerConnection s P with remoteDescription := some offer }, rfl, rfl, rfl,
        by simp [addSystemMessage, storePc, mapSet_mapSet]⟩
    | ok answer =>
      cases b.setLocalDescription with
      | error m =>
        exact ⟨{ newPeerConnection s P with remoteDescription := some offer }, rfl, rfl, rfl,
          by simp [addSystemMessage, storePc, mapSet_mapSet]⟩
      | ok _ =>
        exact ⟨{ newPeerConnection s P with remoteDescription := some offer,
                                            localDescription := some answer }, rfl, rfl, rfl,
          by simp [sendWebRTCMessage_peerConnections, storePc, mapSet_mapSet]⟩

theorem mapGet_closePeerConnection_self (s : Client) (P : String) :
    mapGet (closePeerConnection s P).peerConnections P = none := by
  unfold closePeerConnection
  cases h : mapGet s.peerConnections P with
  | none => simpa using h
  | some pc => simp [mapGet_mapDelete_self]

/-! ## C1: a second `createPeerConnection` for the same peer -/

/-- C1, as stated, fails.  `aliceCallingBob` holds connection `bobFirst` (identity 0) for
`bob`.  `createPeerConnection("bob")` returns another object, and after an offer from `bob`
the entry for `bob` is a connection of identity 1, while `bobFirst` has left the map without
having been closed. -/
theorem C1_counterexample :
    mapGet aliceCallingBob.peerConnections "bob" = some bobFirst ∧
    (createPeerConnection aliceCallingBob "bob").2 ≠ bobFirst ∧
    mapGet (createPeerConnection aliceCallingBob "bob").1.peerConnections "bob" ≠ some bobFirst ∧
    (mapGet (handleWebRTCOffer (Browser.ok "offerA2" "answerA") aliceCallingBob "bob"
        "offerB").peerConnections "bob").map (fun pc => pc.id) = some 1 ∧
    bobFirst.id = 0 ∧
    bobFirst ∈ (handleWebRTCOffer (Browser.ok "offerA2" "answerA") aliceCallingBob "bob"
        "offerB").detached ∧
    bobFirst.connectionState ≠ ConnectionState.closed := by
  decide

/-- C1, amended.  `createPeerConnection(P)` always constructs a connection and stores it
under `P`.  When the map already holds a connection `old` for `P` (with an identity already
handed out), the returned connection is the newly constructed one, it is the entry for `P`
afterwards and is a different object from `old`; the map does not grow, and the entry of
every other peer is the one it was.  The same holds of the entry left by `handleWebRTCOffer`,
whatever the outcome of the negotiation. -/
theorem createPeerConnection_replaces_entry (s : Client) (P : String) (old : PeerConnection)
    (h : mapGet s.peerConnections P = some old) (hid : old.id < s.nextId) :
    (createPeerConnection s P).2 = newPeerConnection s P ∧
    mapGet (createPeerConnection s P).1.peerConnections P = some (newPeerConnection s P) ∧
    (newPeerConnection s P).id ≠ old.id ∧
    (createPeerConnection s P).1.peerConnections.length = s.peerConnections.length ∧
    (∀ Q, Q ≠ P →
      mapGet (createPeerConnection s P).1.peerConnections Q = mapGet s.peerConnections Q) ∧
    (∀ (b : Browser) (offer : Sdp),
      (∃ pc, mapGet (handleWebRTCOffer b s P offer).peerConnections P = some pc ∧
        pc.id = s.nextId ∧ pc.id ≠ old.id) ∧
      (handleWebRTCOffer b s P offer).peerConnections.length = s.peerConnections.length ∧
      ∀ Q, Q ≠ P →
        mapGet (handleWebRTCOffer b s P offer).peerConnections Q = mapGet s.peerConnections Q) := by
  have hhas : mapHas s.peerConnections P = true := by simp [mapHas, h]
  refine ⟨rfl, ?_, ?_, ?_, ?_, ?_⟩
  · simp [createPeerConnection_fst, mapGet_mapSet_self]
  · show s.nextId ≠ old.id
    omega
  · simp [createPeerConnection_fst, length_mapSet_of_has _ _ _ hhas]
  · intro Q hQ
    simp [createPeerConnection_fst, mapGet_mapSet_ne _ _ _ _ hQ]
  · intro b offer
    obtain ⟨pc, hpc, _, _, heq⟩ := handleWebRTCOffer_peerConnections b s P offer
    refine ⟨⟨pc, ?_, hpc, ?_⟩, ?_, ?_⟩
    · rw [heq, mapGet_mapSet_self]
    · omega
    · rw [heq, length_mapSet_of_has _ _ _ hhas]
    · intro Q hQ
      rw [heq, mapGet_mapSet_ne _ _ _ _ hQ]

/-- Witness for C1: the amended statement at `aliceCallingBob` and peer `bob`. -/
theorem createPeerConnection_replaces_entry_witness :
    mapGet (createPeerConnection aliceCallingBob "bob").1.peerConnections "bob" =
      some (newPeerConnection aliceCallingBob "bob") ∧
    (newPeerConnection aliceCallingBob "bob").id ≠ bobFirst.id :=
  have h := createPeerConnection_replaces_entry aliceCallingBob "bob" bobFirst
    (by decide) (by decide)
  ⟨h.2.1, h.2.2.1⟩

/-! ## C2: an offer from a peer to which an offer is outstanding -/

/-- C2, as stated, fails.  The client `alice` has called `bob` (`aliceCallingBob`: a session
`bobFirst` with a local offer and no remote description, one offer envelope sent).  `alice`
sorts before `bob`, so the claim has the offer from `bob` ignored; the code accepts it: the
entry for `bob` is no longer `bobFirst` and an answer envelope goes out to `bob`. -/
theorem C2_counterexample :
    aliceCallingBob.username = "alice" ∧ "alice" < "bob" ∧
    mapGet aliceCallingBob.peerConnections "bob" = some bobFirst ∧
    bobFirst.localDescription = some "offerA" ∧ bobFirst.remoteDescription = none ∧
    aliceCallingBob.sent =
      [{ type := "webrtc_offer", target_user := "bob", webrtc_data := "offerA" }] ∧
    mapGet (handleMessage (Browser.ok "offerA" "answerA") aliceCallingBob
        (Message.webrtc_offer "bob" "offerB")).peerConnections "bob" ≠ some bobFirst ∧
    (handleMessage (Browser.ok "offerA" "answerA") aliceCallingBob
        (Message.webrtc_offer "bob" "offerB")).sent =
      [{ type := "webrtc_offer", target_user := "bob", webrtc_data := "offerA" },
       { type := "webrtc_answer", target_user := "bob", webrtc_data := "answerA" }] := by
  refine ⟨rfl, ?_, ?_⟩
  · rw [String.lt_iff_toList_lt]; decide
  · decide

/-- C2, amended.  No comparison of identities is made: whatever the own username and the
peer `P`, while the client is connected and the browser calls succeed, handling a
`webrtc_offer` from `P` to which an offer is outstanding (session `old`) accepts the incoming
offer.  The entry for `P` becomes a newly constructed connection holding the incoming offer
as remote description and the answer as local description, the session `old` with the own
pending offer leaves the map, and exactly one envelope, a `webrtc_answer` addressed to `P`,
is sent. -/
theorem handleWebRTCOffer_accepts_always (b : Browser) (s : Client) (P : String)
    (offer answer : Sdp) (old : PeerConnection)
    (hold : mapGet s.peerConnections P = some old)
    (hconn : s.isConnected = true)
    (hremote : b.setRemoteDescription = Except.ok ())
    (hanswer : b.createAnswer = Except.ok answer)
    (hlocal : b.setLocalDescription = Except.ok ()) :
    mapGet (handleMessage b s (Message.webrtc_offer P offer)).peerConnections P =
      some { newPeerConnection s P with remoteDescription := some offer,
                                        localDescription := some answer } ∧
    old ∈ (handleMessage b s (Message.webrtc_offer P offer)).detached ∧
    (handleMessage b s (Message.webrtc_offer P offer)).sent =
      s.sent ++ [{ type := "webrtc_answer", target_user := P, webrtc_data := answer }] := by
  simp only [handleMessage, handleWebRTCOffer, createPeerConnection_fst,
    createPeerConnection_snd, hremote, hanswer, hlocal, storePc, sendWebRTCMessage, hconn,
    mapSet_mapSet, hold]
  simp [mapGet_mapSet_self]

/-- Witness for C2: the amended statement at `aliceCallingBob`, whose username sorts before
the peer `bob`. -/
theorem handleWebRTCOffer_accepts_always_witness :
    mapGet aliceCallingBob.peerConnections "bob" = some bobFirst ∧
    aliceCallingBob.isConnected = true ∧
    (handleMessage (Browser.ok "offerA" "answerA") aliceCallingBob
        (Message.webrtc_offer "bob" "offerB")).sent =
      aliceCallingBob.sent ++
        [{ type := "webrtc_answer", target_user := "bob", webrtc_data := "answerA" }] :=
  ⟨by decide, by decide,
    (handleWebRTCOffer_accepts_always (Browser.ok "offerA" "answerA") aliceCallingBob "bob"
      "offerB" "answerA" bobFirst (by decide) (by decide) rfl rfl rfl).2.2⟩

/-- A call to a peer other than oneself that has no entry leaves a newly constructed,
un-closed connection under the peer's name, whatever the browser outcomes. -/
theorem startVideoCall_peerConnections (b : Browser) (s : Client) (T : String)
    (hself : T ≠ s.username) (hno : mapHas s.peerConnections T = false) :
    ∃ pc : PeerConnection, pc.id = s.nextId ∧ pc.connectionState = ConnectionState.new ∧
      (startVideoCall b s T).peerConnections = mapSet s.peerConnections T pc := by
  unfold startVideoCall
  simp only [hself, hno, if_false, createPeerConnection_fst, createPeerConnection_snd]
  cases b.createOffer with
  | error m => exact ⟨newPeerConnection s T, rfl, rfl, rfl⟩
  | ok offer =>
    cases b.setLocalDescription with
    | error m => exact ⟨newPeerConnection s T, rfl, rfl, rfl⟩
    | ok _ =>
      exact ⟨{ newPeerConnection s T with localDescription := some offer }, rfl, rfl,
        by simp [sendWebRTCMessage_peerConnections, storePc, mapSet_mapSet]⟩

/-! ## C3: candidates that arrive before the remote description -/

/-- C3, as stated, fails.  In `aliceCallingBob` the connection for `bob` has no remote
description.  Candidates `c1`, `c2` from `bob` are handled, then an answer from `bob` sets
the remote description: the connection has had no candidate applied.  The same holds when the
remote description comes with a later offer from `bob`. -/
theorem C3_counterexample :
    (mapGet aliceCallingBob.peerConnections "bob").map (fun pc => pc.remoteDescription) =
      some none ∧
    (mapGet (handleMessage (Browser.ok "offerA" "answerA")
        (handleMessage (Browser.ok "offerA" "answerA")
          (handleMessage (Browser.ok "offerA" "answerA") aliceCallingBob
            (Message.webrtc_candidate "bob" "c1"))
          (Message.webrtc_candidate "bob" "c2"))
        (Message.webrtc_answer "bob" "answerB")).peerConnections "bob").map
      (fun pc => (pc.remoteDescription, pc.iceCandidates)) = some (some "answerB", []) ∧
    (mapGet (handleMessage (Browser.ok "offerA" "answerA")
        (handleMessage (Browser.ok "offerA" "answerA")
          (handleMessage (Browser.ok "offerA" "answerA") aliceCallingBob
            (Message.webrtc_candidate "bob" "c1"))
          (Message.webrtc_candidate "bob" "c2"))
        (Message.webrtc_offer "bob" "offerB")).peerConnections "bob").map
      (fun pc => (pc.remoteDescription, pc.iceCandidates)) = some (some "offerB", []) := by
  decide

/-- C3, amended.  Nothing is buffered.  If `c1` and then `c2` arrive from `P` while the
connection `pc` held for `P` has no remote description, both are discarded: the client state
is unchanged.  When an answer from `P` then sets the remote description, the connection
carries the candidates it had before and neither `c1` nor `c2` is applied; a later offer from
`P` yields a connection with no candidate applied.  A candidate `c3` that arrives once the
remote description is set is applied on arrival, after those already applied. -/
theorem candidates_before_remote_description_discarded (b : Browser) (s : Client)
    (P : String) (c1 c2 c3 : Candidate) (answer offer : Sdp) (pc : PeerConnection)
    (hpc : mapGet s.peerConnections P = some pc)
    (hnone : pc.remoteDescription = none)
    (hremote : b.setRemoteDescription = Except.ok ())
    (hadd : b.addIceCandidate = Except.ok ()) :
    handleMessage b (handleMessage b s (Message.webrtc_candidate P c1))
      (Message.webrtc_candidate P c2) = s ∧
    mapGet (handleMessage b
        (handleMessage b (handleMessage b s (Message.webrtc_candidate P c1))
          (Message.webrtc_candidate P c2))
        (Message.webrtc_answer P answer)).peerConnections P =
      some { pc with remoteDescription := some answer } ∧
    (∃ pc2, mapGet (handleMessage b
        (handleMessage b (handleMessage b s (Message.webrtc_candidate P c1))
          (Message.webrtc_candidate P c2))
        (Message.webrtc_offer P offer)).peerConnections P = some pc2 ∧
      pc2.iceCandidates = []) ∧
    mapGet (handleMessage b (handleMessage b s (Message.webrtc_answer P answer))
        (Message.webrtc_candidate P c3)).peerConnections P =
      some { pc with remoteDescription := some answer,
                     iceCandidates := pc.iceCandidates ++ [c3] } := by
  have hdrop : ∀ c, handleMessage b s (Message.webrtc_candidate P c) = s := by
    intro c
    simp [handleMessage, handleWebRTCCandidate, hpc, hnone]
  have hans : handleMessage b s (Message.webrtc_answer P answer) =
      storePc s P { pc with remoteDescription := some answer } := by
    simp [handleMessage, handleWebRTCAnswer, hpc, hremote]
  rw [hdrop c1, hdrop c2]
  refine ⟨rfl, ?_, ?_, ?_⟩
  · rw [hans]
    simp [storePc, mapGet_mapSet_self]
  · obtain ⟨pc2, _, _, hice, heq⟩ := handleWebRTCOffer_peerConnections b s P offer
    exact ⟨pc2, by simp [handleMessage, heq, mapGet_mapSet_self], hice⟩
  · rw [hans]
    simp [handleMessage, handleWebRTCCandidate, storePc, mapGet_mapSet_self, hadd,
      mapSet_mapSet]

/-- Witness for C3: the amended statement at `aliceCallingBob` and peer `bob`. -/
theorem candidates_before_remote_description_discarded_witness :
    mapGet aliceCallingBob.peerConnections "bob" = some bobFirst ∧
    bobFirst.remoteDescription = none ∧
    handleMessage (Browser.ok "offerA" "answerA")
      (handleMessage (Browser.ok "offerA" "answerA") aliceCallingBob
        (Message.webrtc_candidate "bob" "c1"))
      (Message.webrtc_candidate "bob" "c2") = aliceCallingBob :=
  ⟨by decide, rfl,
    (candidates_before_remote_description_discarded (Browser.ok "offerA" "answerA")
      aliceCallingBob "bob" "c1" "c2" "c3" "answerB" "offerB" bobFirst (by decide) rfl rfl
      rfl).1⟩

/-! ## C4: answers and candidates from a peer without a session -/

/-- C4.  When `peerConnections` has no entry for `P`, handling a `webrtc_answer` or a
`webrtc_candidate` from `P` returns the client state as it was: `peerConnections`,
`onlineUsers` and `broadcastingUsers` are unchanged, no envelope is added to `sent`, and no
system message is added to `messages`. -/
theorem stale_answer_and_candidate_discarded (b : Browser) (s : Client) (P : String)
    (answer : Sdp) (candidate : Candidate) (h : mapGet s.peerConnections P = none) :
    (handleMessage b s (Message.webrtc_answer P answer) = s ∧
      handleMessage b s (Message.webrtc_candidate P candidate) = s) ∧
    ((handleMessage b s (Message.webrtc_answer P answer)).peerConnections = s.peerConnections ∧
      (handleMessage b s (Message.webrtc_answer P answer)).onlineUsers = s.onlineUsers ∧
      (handleMessage b s (Message.webrtc_answer P answer)).broadcastingUsers =
        s.broadcastingUsers ∧
      (handleMessage b s (Message.webrtc_answer P answer)).sent = s.sent ∧
      (handleMessage b s (Message.webrtc_answer P answer)).messages = s.messages) ∧
    ((handleMessage b s (Message.webrtc_candidate P candidate)).peerConnections =
        s.peerConnections ∧
      (handleMessage b s (Message.webrtc_candidate P candidate)).onlineUsers = s.onlineUsers ∧
      (handleMessage b s (Message.webrtc_candidate P candidate)).broadcastingUsers =
        s.broadcastingUsers ∧
      (handleMessage b s (Message.webrtc_candidate P candidate)).sent = s.sent ∧
      (handleMessage b s (Message.webrtc_candidate P candidate)).messages = s.messages) := by
  have ha : handleMessage b s (Message.webrtc_answer P answer) = s := by
    simp [handleMessage, handleWebRTCAnswer, h]
  have hc : handleMessage b s (Message.webrtc_candidate P candidate) = s := by
    simp [handleMessage, handleWebRTCCandidate, h]
  rw [ha, hc]
  simp

/-- Witness for C4: `aliceCallingBob` has no session for `carol`. -/
theorem stale_answer_and_candidate_discarded_witness :
    mapGet aliceCallingBob.peerConnections "carol" = none ∧
    handleMessage (Browser.ok "offerA" "answerA") aliceCallingBob
      (Message.webrtc_answer "carol" "answerC") = aliceCallingBob ∧
    handleMessage (Browser.ok "offerA" "answerA") aliceCallingBob
      (Message.webrtc_candidate "carol" "c1") = aliceCallingBob :=
  ⟨by decide,
    (stale_answer_and_candidate_discarded (Browser.ok "offerA" "answerA") aliceCallingBob
      "carol" "answerC" "c1" (by decide)).1⟩

/-! ## C5: `startVideoCall` -/

/-- C5.  When the target `T` already has an entry in `peerConnections`, `startVideoCall(T)`
returns the client state as it was (same map, same connection for `T`, nothing sent); and
when `T` is not the own username and has no entry, `peerConnections` has an entry for `T`
after `startVideoCall(T)`, whatever the browser outcomes. -/
theorem startVideoCall_existing_noop_missing_creates (b : Browser) (s : Client) (T : String) :
    (mapHas s.peerConnections T = true →
      startVideoCall b s T = s ∧
      (startVideoCall b s T).peerConnections = s.peerConnections ∧
      mapGet (startVideoCall b s T).peerConnections T = mapGet s.peerConnections T ∧
      (startVideoCall b s T).sent = s.sent) ∧
    (T ≠ s.username → mapHas s.peerConnections T = false →
      mapHas (startVideoCall b s T).peerConnections T = true) := by
  constructor
  · intro h
    have : startVideoCall b s T = s := by
      unfold startVideoCall
      simp [h]
    rw [this]
    simp
  · intro hself hno
    obtain ⟨pc, _, _, heq⟩ := startVideoCall_peerConnections b s T hself hno
    simp [heq, mapHas, mapGet_mapSet_self]

/-- Witness for C5: in `aliceCallingBob` the peer `bob` has an entry and `carol` has none. -/
theorem startVideoCall_existing_noop_missing_creates_witness :
    mapHas aliceCallingBob.peerConnections "bob" = true ∧
    startVideoCall (Browser.ok "offerA" "answerA") aliceCallingBob "bob" = aliceCallingBob ∧
    "carol" ≠ aliceCallingBob.username ∧
    mapHas aliceCallingBob.peerConnections "carol" = false ∧
    mapHas (startVideoCall (Browser.ok "offerA" "answerA") aliceCallingBob
      "carol").peerConnections "carol" = true :=
  ⟨by decide,
    ((startVideoCall_existing_noop_missing_creates (Browser.ok "offerA" "answerA")
      aliceCallingBob "bob").1 (by decide)).1,
    by decide, by decide,
    (startVideoCall_existing_noop_missing_creates (Browser.ok "offerA" "answerA")
      aliceCallingBob "carol").2 (by decide) (by decide)⟩

/-! ## C6: `closePeerConnection` twice -/

/-- C6.  `closePeerConnection(P)` applied twice yields the state reached by applying it
once; on a state with no entry for `P` it returns the state as it was; and after any call
`peerConnections` has no entry for `P`. -/
theorem closePeerConnection_idempotent (s : Client) (P : String) :
    closePeerConnection (closePeerConnection s P) P = closePeerConnection s P ∧
    (mapGet s.peerConnections P = none → closePeerConnection s P = s) ∧
    mapGet (closePeerConnection s P).peerConnections P = none := by
  have hafter : mapGet (closePeerConnection s P).peerConnections P = none := by
    unfold closePeerConnection
    cases h : mapGet s.peerConnections P with
    | none => simpa using h
    | some pc => simp [mapGet_mapDelete_self]
  have hnone : ∀ t : Client, mapGet t.peerConnections P = none → closePeerConnection t P = t := by
    intro t ht
    simp [closePeerConnection, ht]
  exact ⟨hnone _ hafter, hnone s, hafter⟩

/-- Witness for C6: closing the session of `bob` in `aliceWatchingBob`, then closing it again
and closing the absent session of `carol`. -/
theorem closePeerConnection_idempotent_witness :
    mapGet aliceWatchingBob.peerConnections "carol" = none ∧
    closePeerConnection aliceWatchingBob "carol" = aliceWatchingBob ∧
    closePeerConnection (closePeerConnection aliceWatchingBob "bob") "bob" =
      closePeerConnection aliceWatchingBob "bob" ∧
    closePeerConnection aliceWatchingBob "bob" ≠ aliceWatchingBob :=
  ⟨by decide, (closePeerConnection_idempotent aliceWatchingBob "carol").2.1 (by decide),
    (closePeerConnection_idempotent aliceWatchingBob "bob").1, by decide⟩

/-! ## C7: `user_left` -/

/-- C7.  In every client state, with or without a local stream, after a `user_left` message
for `P` the peer `P` is in neither `onlineUsers` nor `broadcastingUsers`,
`peerConnections` has no entry for `P`, and the connection held for `P` before, if any, has
been closed. -/
theorem user_left_removes_peer (b : Browser) (s : Client) (P : String) :
    P ∉ (handleMessage b s (Message.user_left P)).onlineUsers ∧
    P ∉ (handleMessage b s (Message.user_left P)).broadcastingUsers ∧
    mapGet (handleMessage b s (Message.user_left P)).peerConnections P = none ∧
    (∀ pc, mapGet s.peerConnections P = some pc →
      pc.close ∈ (handleMessage b s (Message.user_left P)).detached ∧
      pc.close.connectionState = ConnectionState.closed) := by
  simp only [handleMessage]
  refine ⟨?_, ?_, mapGet_closePeerConnection_self _ P, ?_⟩
  · unfold closePeerConnection
    simp only [addSystemMessage, removeUser]
    cases mapGet s.peerConnections P <;> simp [not_mem_setDelete_self]
  · unfold closePeerConnection
    simp only [addSystemMessage, removeUser]
    cases mapGet s.peerConnections P <;> simp [not_mem_setDelete_self]
  · intro pc hpc
    simp [closePeerConnection, addSystemMessage, removeUser, hpc, PeerConnection.close]

/-- Witness for C7: `user_left` for `bob` in `aliceWatchingBob` closes `bobFirst`. -/
theorem user_left_removes_peer_witness :
    mapGet aliceWatchingBob.peerConnections "bob" = some bobFirst ∧
    bobFirst.close ∈ (handleMessage (Browser.ok "offerA" "answerA") aliceWatchingBob
      (Message.user_left "bob")).detached ∧
    bobFirst.close.connectionState = ConnectionState.closed :=
  ⟨by decide,
    (user_left_removes_peer (Browser.ok "offerA" "answerA") aliceWatchingBob "bob").2.2.2
      bobFirst (by decide)⟩

/-! ## C8: `users_list` -/

/-- C8, as stated, fails.  In `aliceWatchingBob` the peer `bob` is online, has the session
`bobFirst` and is marked broadcasting.  After the snapshot `["alice", "carol"]`, which omits
`bob`, `onlineUsers` is the snapshot, but the entry for `bob` is still `bobFirst`, which has
not been closed, and `bob` is still in `broadcastingUsers`. -/
theorem C8_counterexample :
    "bob" ∈ aliceWatchingBob.onlineUsers ∧ "bob" ∉ ["alice", "carol"] ∧
    (handleMessage (Browser.ok "offerA" "answerA") aliceWatchingBob
      (Message.users_list (UsersContent.array ["alice", "carol"]))).onlineUsers =
      ["alice", "carol"] ∧
    mapGet (handleMessage (Browser.ok "offerA" "answerA") aliceWatchingBob
      (Message.users_list (UsersContent.array ["alice", "carol"]))).peerConnections "bob" =
      some bobFirst ∧
    bobFirst.connectionState ≠ ConnectionState.closed ∧
    (handleMessage (Browser.ok "offerA" "answerA") aliceWatchingBob
      (Message.users_list (UsersContent.array ["alice", "carol"]))).detached = [] ∧
    "bob" ∈ (handleMessage (Browser.ok "offerA" "answerA") aliceWatchingBob
      (Message.users_list (UsersContent.array ["alice", "carol"]))).broadcastingUsers := by
  decide

/-- C8, amended.  After a `users_list` snapshot `L`, `onlineUsers` holds exactly the names
in `L`.  The handler tears down nothing: `peerConnections` and `broadcastingUsers` are as
they were and no connection has been closed, so the session of a peer present in both
snapshots is untouched, and so is the session of a peer missing from `L`. -/
theorem users_list_replaces_presence_only (b : Browser) (s : Client) (L : List String) :
    (∀ u, u ∈ (handleMessage b s (Message.users_list (UsersContent.array L))).onlineUsers ↔
      u ∈ L) ∧
    (handleMessage b s (Message.users_list (UsersContent.array L))).peerConnections =
      s.peerConnections ∧
    (handleMessage b s (Message.users_list (UsersContent.array L))).broadcastingUsers =
      s.broadcastingUsers ∧
    (handleMessage b s (Message.users_list (UsersContent.array L))).detached = s.detached := by
  simp only [handleMessage, handleUsersList]
  split <;> simp [mem_foldl_setAdd]

/-! ## C9: the call scheduled on a join -/

/-- C9, as stated, fails.  The client `aliceLive` shares local media.  `user_joined` for
`bob` schedules a call, `user_left` for `bob` follows before the timer is delivered: the
timer is still pending, and when it fires a session for `bob` is created and an offer
envelope is sent to `bob`. -/
theorem C9_counterexample :
    aliceLive.localStream.isSome = true ∧
    (handleMessage (Browser.ok "offerA" "answerA") aliceLive
      (Message.user_joined "bob")).timers = [Timer.call "bob"] ∧
    (handleMessage (Browser.ok "offerA" "answerA")
      (handleMessage (Browser.ok "offerA" "answerA") aliceLive (Message.user_joined "bob"))
      (Message.user_left "bob")).timers = [Timer.call "bob"] ∧
    mapHas (fireTimer (fun _ => Browser.ok "offerA" "answerA")
      (handleMessage (Browser.ok "offerA" "answerA")
        (handleMessage (Browser.ok "offerA" "answerA") aliceLive (Message.user_joined "bob"))
        (Message.user_left "bob")) 0).peerConnections "bob" = true ∧
    (fireTimer (fun _ => Browser.ok "offerA" "answerA")
      (handleMessage (Browser.ok "offerA" "answerA")
        (handleMessage (Browser.ok "offerA" "answerA") aliceLive (Message.user_joined "bob"))
        (Message.user_left "bob")) 0).sent =
      [{ type := "webrtc_offer", target_user := "bob", webrtc_data := "offerA" }] := by
  decide

/-- C9, amended.  The delayed call is not cancelled by `user_left`.  If `user_joined(P)` is
handled while local media is active, with `P` other than the own username, and `user_left(P)`
is handled before the timer is delivered, the timer for `P` is still the last pending one; when
it fires, `startVideoCall(P)` runs and, `user_left` having removed any entry for `P`, leaves
a session for `P` in `peerConnections`; if moreover the client is connected and the offer is
created and set, one `webrtc_offer` envelope addressed to `P` is sent. -/
theorem scheduled_call_not_cancelled_by_user_left (b : Browser) (bs : String → Browser)
    (s : Client) (P : String) (offer : Sdp)
    (hmedia : s.localStream.isSome = true) (hself : P ≠ s.username) :
    (handleMessage b (handleMessage b s (Message.user_joined P)) (Message.user_left P)).timers =
      s.timers ++ [Timer.call P] ∧
    mapHas (fireTimer bs
      (handleMessage b (handleMessage b s (Message.user_joined P)) (Message.user_left P))
      s.timers.length).peerConnections P = true ∧
    (s.isConnected = true → (bs P).createOffer = Except.ok offer →
      (bs P).setLocalDescription = Except.ok () →
      (fireTimer bs
        (handleMessage b (handleMessage b s (Message.user_joined P)) (Message.user_left P))
        s.timers.length).sent =
        s.sent ++ [{ type := "webrtc_offer", target_user := P, webrtc_data := offer }]) := by
  set s2 := handleMessage b (handleMessage b s (Message.user_joined P)) (Message.user_left P)
    with hs2
  have hunfold : s2 = closePeerConnection
      (addSystemMessage (removeUser
        { addSystemMessage (addUser s P) (P ++ " присоединился к чату") with
          timers := s.timers ++ [Timer.call P] } P) (P ++ " покинул чат")) P := by
    simp [hs2, handleMessage, addSystemMessage, addUser, hmedia, hself]
  have hview : s2.timers = s.timers ++ [Timer.call P] ∧ s2.username = s.username ∧
      s2.sent = s.sent ∧ s2.isConnected = s.isConnected := by
    rw [hunfold]
    unfold closePeerConnection
    simp only [addSystemMessage, removeUser, addUser]
    cases mapGet s.peerConnections P <;> simp
  obtain ⟨htimers, huser, hsent, hconn⟩ := hview
  have hno : mapGet s2.peerConnections P = none := by
    rw [hunfold]
    exact mapGet_closePeerConnection_self _ P
  have hfire : fireTimer bs s2 s.timers.length =
      startVideoCall (bs P) { s2 with timers := s.timers } P := by
    simp [fireTimer, htimers, runTimer, List.eraseIdx_append_of_length_le]
  have hself2 : P ≠ ({ s2 with timers := s.timers } : Client).username := by
    simpa [huser] using hself
  have hno2 : mapHas ({ s2 with timers := s.timers } : Client).peerConnections P = false := by
    simp [mapHas, hno]
  refine ⟨htimers, ?_, ?_⟩
  · rw [hfire]
    obtain ⟨pc, _, _, heq⟩ := startVideoCall_peerConnections (bs P) _ P hself2 hno2
    simp [heq, mapHas, mapGet_mapSet_self]
  · intro hc hoffer hlocal
    rw [hfire]
    unfold startVideoCall
    have hself3 : ¬ P = s2.username := by rw [huser]; exact hself
    have hno3 : mapHas s2.peerConnections P = false := by simp [mapHas, hno]
    simp [hself3, hno3, hoffer, hlocal, createPeerConnection, storePc, sendWebRTCMessage,
      hconn, hc, hsent]

/-- Witness for C9: the amended statement at `aliceLive` and peer `bob`. -/
theorem scheduled_call_not_cancelled_by_user_left_witness :
    aliceLive.localStream.isSome = true ∧ "bob" ≠ aliceLive.username ∧
    mapHas (fireTimer (fun _ => Browser.ok "offerA" "answerA")
      (handleMessage (Browser.ok "offerA" "answerA")
        (handleMessage (Browser.ok "offerA" "answerA") aliceLive (Message.user_joined "bob"))
        (Message.user_left "bob"))
      aliceLive.timers.length).peerConnections "bob" = true :=
  ⟨by decide, by decide,
    (scheduled_call_not_cancelled_by_user_left (Browser.ok "offerA" "answerA")
      (fun _ => Browser.ok "offerA" "answerA") aliceLive "bob" "offerA" (by decide)
      (by decide)).2.1⟩

/-! ## C10: a negotiation step fails -/

/-- C10, as stated, fails.  `createOffer` is rejected inside `startVideoCall("bob")` on
`aliceLive`: afterwards `peerConnections` still holds the session for `bob`, which is not
closed, nothing has been closed, and a later `startVideoCall("bob")` with a working browser
changes nothing and sends nothing.  Likewise when `setRemoteDescription` is rejected inside
`handleWebRTCOffer` for an offer from `bob`. -/
theorem C10_counterexample :
    (mapGet (startVideoCall (Browser.offerFails "boom") aliceLive "bob").peerConnections
      "bob").map (fun pc => pc.connectionState) = some ConnectionState.new ∧
    (startVideoCall (Browser.offerFails "boom") aliceLive "bob").detached = [] ∧
    startVideoCall (Browser.ok "offerA" "answerA")
      (startVideoCall (Browser.offerFails "boom") aliceLive "bob") "bob" =
      startVideoCall (Browser.offerFails "boom") aliceLive "bob" ∧
    (startVideoCall (Browser.ok "offerA" "answerA")
      (startVideoCall (Browser.offerFails "boom") aliceLive "bob") "bob").sent = [] ∧
    (mapGet (handleWebRTCOffer (Browser.remoteFails "boom") aliceLive "bob"
      "offerB").peerConnections "bob").map (fun pc => pc.connectionState) =
      some ConnectionState.new ∧
    (handleWebRTCOffer (Browser.remoteFails "boom") aliceLive "bob" "offerB").detached = [] := by
  decide

/-- C10, amended.  A failed negotiation surfaces a system message naming `P` and leaves the
session registered.  If `createOffer` is rejected with message `m` inside
`startVideoCall(P)` (for `P` other than the own username and without an entry), or
`setRemoteDescription` or `createAnswer` is rejected with message `m` inside
`handleWebRTCOffer` for an offer from `P`, then afterwards `peerConnections` holds for `P`
the connection constructed by the handler, that connection is not closed, no envelope has
been sent, and the one message added is the failure notice, which names `P`. -/
theorem negotiation_failure_keeps_session (b : Browser) (s : Client) (P m : String)
    (offer : Sdp) :
    (P ≠ s.username → mapHas s.peerConnections P = false → b.createOffer = Except.error m →
      mapGet (startVideoCall b s P).peerConnections P = some (newPeerConnection s P) ∧
      (newPeerConnection s P).connectionState ≠ ConnectionState.closed ∧
      (startVideoCall b s P).sent = s.sent ∧
      (startVideoCall b s P).messages =
        s.messages ++ [MessageEl.system ("Ошибка при звонке " ++ P ++ ": " ++ m)]) ∧
    ((b.setRemoteDescription = Except.error m ∨
        (b.setRemoteDescription = Except.ok () ∧ b.createAnswer = Except.error m)) →
      (∃ pc, mapGet (handleWebRTCOffer b s P offer).peerConnections P = some pc ∧
        pc.id = s.nextId ∧ pc.connectionState ≠ ConnectionState.closed) ∧
      (handleWebRTCOffer b s P offer).sent = s.sent ∧
      (handleWebRTCOffer b s P offer).messages =
        s.messages ++ [MessageEl.system ("Ошибка видео-звонка с " ++ P ++ ": " ++ m)]) := by
  constructor
  · intro hself hno hfail
    unfold startVideoCall
    simp [hself, hno, hfail, createPeerConnection, addSystemMessage, mapGet_mapSet_self,
      newPeerConnection]
  · intro hfail
    refine ⟨?_, ?_⟩
    · obtain ⟨pc, hid, hst, _, heq⟩ := handleWebRTCOffer_peerConnections b s P offer
      exact ⟨pc, by rw [heq, mapGet_mapSet_self], hid, by simp [hst]⟩
    · unfold handleWebRTCOffer
      rcases hfail with h | ⟨h1, h2⟩
      · simp [h, createPeerConnection, addSystemMessage]
      · simp [h1, h2, createPeerConnection, addSystemMessage, storePc]

/-- Witness for C10: the amended statement at `aliceLive` and peer `bob`, with `createOffer`
rejected in the call and `setRemoteDescription` rejected on the offer. -/
theorem negotiation_failure_keeps_session_witness :
    ("bob" ≠ aliceLive.username ∧ mapHas aliceLive.peerConnections "bob" = false ∧
      (Browser.offerFails "boom").createOffer = Except.error "boom" ∧
      (startVideoCall (Browser.offerFails "boom") aliceLive "bob").messages =
        aliceLive.messages ++
          [MessageEl.system ("Ошибка при звонке " ++ "bob" ++ ": " ++ "boom")]) ∧
    ((Browser.remoteFails "boom").setRemoteDescription = Except.error "boom" ∧
      (handleWebRTCOffer (Browser.remoteFails "boom") aliceLive "bob" "offerB").messages =
        aliceLive.messages ++
          [MessageEl.system ("Ошибка видео-звонка с " ++ "bob" ++ ": " ++ "boom")]) :=
  ⟨⟨by decide, by decide, rfl,
      ((negotiation_failure_keeps_session (Browser.offerFails "boom") aliceLive "bob" "boom"
        "offerB").1 (by decide) (by decide) rfl).2.2.2⟩,
    ⟨rfl,
      ((negotiation_failure_keeps_session (Browser.remoteFails "boom") aliceLive "bob" "boom"
        "offerB").2 (Or.inl rfl)).2.2⟩⟩

/-! ## More lemmas -/

theorem mem_of_mapGet (m : List (String × PeerConnection)) (k : String) (v : PeerConnection)
    (h : mapGet m k = some v) : (k, v) ∈ m := by
  induction m with
  | nil => simp [mapGet] at h
  | cons e rest ih =>
    obtain ⟨k', w⟩ := e
    by_cases hk : k' = k
    · subst hk
      simp only [mapGet, if_true, Option.some.injEq] at h
      subst h
      exact List.mem_cons_self _ _
    · simp only [mapGet, hk, if_false] at h
      exact List.mem_cons_of_mem _ (ih h)

theorem close_mem_map_close (m : List (String × PeerConnection)) (k : String)
    (v : PeerConnection) (h : mapGet m k = some v) :
    v.close ∈ m.map (fun e => e.2.close) :=
  List.mem_map.mpr ⟨(k, v), mem_of_mapGet m k v h, rfl⟩

theorem closePeerConnection_broadcastingUsers (s : Client) (P : String) :
    (closePeerConnection s P).broadcastingUsers = s.broadcastingUsers ∨
    (closePeerConnection s P).broadcastingUsers = setDelete s.broadcastingUsers P := by
  unfold closePeerConnection
  cases mapGet s.peerConnections P with
  | none => exact Or.inl rfl
  | some pc => exact Or.inr rfl

theorem closePeerConnection_onlineUsers (s : Client) (P : String) :
    (closePeerConnection s P).onlineUsers = s.onlineUsers := by
  unfold closePeerConnection
  cases mapGet s.peerConnections P <;> rfl

/-! ## C11: the connection reports `disconnected` or `failed` -/

/-- C11, as stated, fails.  In `aliceWatchingBob` the connection `bobFirst` held for `bob`
reports `failed`: the entry for `bob` is removed from `peerConnections` and `bobFirst` is
closed.  The handler does the same on `disconnected`. -/
theorem C11_counterexample :
    mapGet aliceWatchingBob.peerConnections "bob" = some bobFirst ∧
    mapGet (connectionStateChanged aliceWatchingBob "bob"
      ConnectionState.failed).peerConnections "bob" = none ∧
    bobFirst.close ∈ (connectionStateChanged aliceWatchingBob "bob"
      ConnectionState.failed).detached ∧
    bobFirst.close.connectionState = ConnectionState.closed ∧
    mapGet (onconnectionstatechange aliceWatchingBob "bob"
      ConnectionState.disconnected).peerConnections "bob" = none := by
  decide

/-- C11, amended.  A degraded connection is torn down at once.  When the connection `pc` held
for `P` reports `disconnected` or `failed`, the handler surfaces a notice naming `P`, removes
`P` from `broadcastingUsers`, closes the connection and removes the entry for `P` from
`peerConnections`: the session is not kept for a recovery. -/
theorem connection_loss_tears_down_session (s : Client) (P : String)
    (state : ConnectionState) (pc : PeerConnection)
    (hpc : mapGet s.peerConnections P = some pc)
    (hstate : state = ConnectionState.disconnected ∨ state = ConnectionState.failed) :
    mapGet (connectionStateChanged s P state).peerConnections P = none ∧
    pc.close ∈ (connectionStateChanged s P state).detached ∧
    P ∉ (connectionStateChanged s P state).broadcastingUsers ∧
    (connectionStateChanged s P state).messages =
      s.messages ++ [MessageEl.system ("Видео-соединение с " ++ P ++ " потеряно")] ∧
    pc.close.connectionState = ConnectionState.closed ∧
    mapGet (onconnectionstatechange s P state).peerConnections P = none := by
  have hne : state ≠ ConnectionState.connected := by
    rcases hstate with h | h <;> simp [h]
  have hview : connectionStateChanged s P state =
      { s with peerConnections := mapDelete (mapSet s.peerConnections P
                 { pc with connectionState := state }) P,
               detached := s.detached ++ [pc.close],
               remoteVideos := setDelete s.remoteVideos P,
               broadcastingUsers := setDelete (setDelete s.broadcastingUsers P) P,
               messages := s.messages ++
                 [MessageEl.system ("Видео-соединение с " ++ P ++ " потеряно")] } := by
    simp only [connectionStateChanged, hpc, onconnectionstatechange, hne, if_false, hstate,
      if_true, closePeerConnection, storePc, addSystemMessage, mapGet_mapSet_self,
      PeerConnection.close]
  have hgone : mapGet (connectionStateChanged s P state).peerConnections P = none := by
    rw [hview]
    exact mapGet_mapDelete_self _ P
  refine ⟨hgone, ?_, ?_, ?_, ?_, ?_⟩
  · rw [hview]
    simp
  · rw [hview]
    simp [mem_setDelete]
  · rw [hview]
  · rfl
  · simp only [onconnectionstatechange, hne, if_false, hstate, if_true]
    exact mapGet_closePeerConnection_self _ P

/-- Witness for C11: the amended statement at `aliceWatchingBob`, peer `bob`, state `failed`. -/
theorem connection_loss_tears_down_session_witness :
    mapGet aliceWatchingBob.peerConnections "bob" = some bobFirst ∧
    mapGet (connectionStateChanged aliceWatchingBob "bob"
      ConnectionState.failed).peerConnections "bob" = none :=
  ⟨by decide,
    (connection_loss_tears_down_session aliceWatchingBob "bob" ConnectionState.failed bobFirst
      (by decide) (Or.inr rfl)).1⟩

/-! ## C12: when a peer is marked broadcasting -/

/-- C12, as stated, fails.  In `aliceCallingBob` no track has been received from `bob` (there
is no remote video), the connection for `bob` is in state `new`, and `bob` is not marked
broadcasting.  A change of state to `connected`, with no track received, puts `bob` into
`broadcastingUsers`; so does a track event while the connection is still in state `new`. -/
theorem C12_counterexample :
    "bob" ∉ aliceCallingBob.broadcastingUsers ∧ aliceCallingBob.remoteVideos = [] ∧
    (mapGet aliceCallingBob.peerConnections "bob").map (fun pc => pc.connectionState) =
      some ConnectionState.new ∧
    "bob" ∈ (connectionStateChanged aliceCallingBob "bob"
      ConnectionState.connected).broadcastingUsers ∧
    (connectionStateChanged aliceCallingBob "bob" ConnectionState.connected).remoteVideos = [] ∧
    "bob" ∈ (ontrack aliceCallingBob "bob").broadcastingUsers ∧
    (mapGet (ontrack aliceCallingBob "bob").peerConnections "bob").map
      (fun pc => pc.connectionState) = some ConnectionState.new := by
  decide

/-- C12, amended.  Either event marks the peer on its own.  A track event of the connection
built for `P` puts `P` into `broadcastingUsers` whatever the connection state, and a change
of state to `connected` puts `P` into `broadcastingUsers` whether or not a track has been
received.  The handlers mark a peer in no other case: a change to a state other than
`connected` adds nobody to `broadcastingUsers`, and a candidate event leaves it as it
was. -/
theorem broadcasting_marked_by_track_or_connected (s : Client) (P : String) :
    P ∈ (ontrack s P).broadcastingUsers ∧
    (ontrack s P).peerConnections = s.peerConnections ∧
    P ∈ (onconnectionstatechange s P ConnectionState.connected).broadcastingUsers ∧
    (onconnectionstatechange s P ConnectionState.connected).remoteVideos = s.remoteVideos ∧
    (∀ state, state ≠ ConnectionState.connected → ∀ u,
      u ∈ (onconnectionstatechange s P state).broadcastingUsers → u ∈ s.broadcastingUsers) ∧
    (∀ c, (onicecandidate s P c).broadcastingUsers = s.broadcastingUsers) := by
  refine ⟨?_, rfl, ?_, ?_, ?_, ?_⟩
  · simp [ontrack, mem_setAdd]
  · simp [onconnectionstatechange, addSystemMessage, mem_setAdd]
  · simp [onconnectionstatechange, addSystemMessage]
  · intro state hne u hu
    simp only [onconnectionstatechange, hne, if_false] at hu
    split at hu
    · rcases closePeerConnection_broadcastingUsers
        { addSystemMessage s ("Видео-соединение с " ++ P ++ " потеряно") with
          broadcastingUsers := setDelete
            (addSystemMessage s ("Видео-соединение с " ++ P ++ " потеряно")).broadcastingUsers
            P } P with h | h
      · rw [h] at hu
        exact ((mem_setDelete _ _ _).mp hu).1
      · rw [h] at hu
        exact ((mem_setDelete _ _ _).mp ((mem_setDelete _ _ _).mp hu).1).1
    · exact hu
  · intro c
    cases c with
    | none => rfl
    | some c =>
      simp only [onicecandidate, sendWebRTCMessage]
      split <;> rfl

/-! ## C13: `stopVideo` -/

/-- C13, as stated, fails.  `aliceWatchingBob` has active local media and a session for
`bob`.  After `stopVideo` there is no entry for `bob`, and the connection `bobFirst` has been
closed. -/
theorem C13_counterexample :
    aliceWatchingBob.localStream.isSome = true ∧
    mapHas aliceWatchingBob.peerConnections "bob" = true ∧
    mapHas (stopVideo aliceWatchingBob).peerConnections "bob" = false ∧
    bobFirst.close ∈ (stopVideo aliceWatchingBob).detached := by
  decide

/-- C13, amended.  Stopping local media closes every session: after `stopVideo` the map
`peerConnections` is empty, every connection it held has been closed, `localStream` is null
and the own username is no longer marked broadcasting. -/
theorem stopVideo_closes_all_sessions (s : Client) :
    (stopVideo s).peerConnections = [] ∧
    (∀ P pc, mapGet s.peerConnections P = some pc →
      pc.close ∈ (stopVideo s).detached ∧
      pc.close.connectionState = ConnectionState.closed) ∧
    (stopVideo s).localStream = none ∧
    s.username ∉ (stopVideo s).broadcastingUsers := by
  refine ⟨rfl, ?_, rfl, ?_⟩
  · intro P pc h
    refine ⟨?_, rfl⟩
    simp only [stopVideo, addSystemMessage, List.mem_append]
    exact Or.inr (close_mem_map_close _ P pc h)
  · simp [stopVideo, addSystemMessage, mem_setDelete]

/-- Witness for C13: `stopVideo` on `aliceWatchingBob` closes `bobFirst`. -/
theorem stopVideo_closes_all_sessions_witness :
    mapGet aliceWatchingBob.peerConnections "bob" = some bobFirst ∧
    bobFirst.close ∈ (stopVideo aliceWatchingBob).detached :=
  ⟨by decide,
    ((stopVideo_closes_all_sessions aliceWatchingBob).2.1 "bob" bobFirst (by decide)).1⟩

/-! ## C14: the other sessions -/

theorem sendWebRTCMessage_users (s : Client) (ty target data : String) :
    (sendWebRTCMessage s ty target data).onlineUsers = s.onlineUsers ∧
    (sendWebRTCMessage s ty target data).broadcastingUsers = s.broadcastingUsers ∧
    (sendWebRTCMessage s ty target data).username = s.username ∧
    (sendWebRTCMessage s ty target data).isConnected = s.isConnected := by
  unfold sendWebRTCMessage; split <;> simp

theorem handleWebRTCOffer_users (b : Browser) (s : Client) (P : String) (offer : Sdp) :
    (handleWebRTCOffer b s P offer).onlineUsers = s.onlineUsers ∧
    (handleWebRTCOffer b s P offer).broadcastingUsers = s.broadcastingUsers := by
  unfold handleWebRTCOffer
  simp only [createPeerConnection_fst, createPeerConnection_snd]
  cases b.setRemoteDescription with
  | error m => exact ⟨rfl, rfl⟩
  | ok _ =>
    cases b.createAnswer with
    | error m => exact ⟨rfl, rfl⟩
    | ok answer =>
      cases b.setLocalDescription with
      | error m => exact ⟨rfl, rfl⟩
      | ok _ =>
        simp only []
        exact ⟨(sendWebRTCMessage_users _ _ _ _).1, (sendWebRTCMessage_users _ _ _ _).2.1⟩

theorem startVideoCall_users (b : Browser) (s : Client) (T : String) :
    (startVideoCall b s T).onlineUsers = s.onlineUsers ∧
    (startVideoCall b s T).broadcastingUsers = s.broadcastingUsers ∧
    (startVideoCall b s T).username = s.username ∧
    (startVideoCall b s T).isConnected = s.isConnected := by
  unfold startVideoCall
  split
  · simp
  · split
    · simp
    · simp only [createPeerConnection_fst, createPeerConnection_snd]
      cases b.createOffer with
      | error m => simp [addSystemMessage]
      | ok offer =>
        cases b.setLocalDescription with
        | error m => simp [addSystemMessage]
        | ok _ =>
          simp only []
          have h := sendWebRTCMessage_users
            (storePc { s with peerConnections := mapSet s.peerConnections T
                                (newPeerConnection s T),
                              detached := s.detached ++ (mapGet s.peerConnections T).toList,
                              nextId := s.nextId + 1 } T
              { newPeerConnection s T with localDescription := some offer })
            "webrtc_offer" T offer
          exact ⟨h.1, h.2.1, h.2.2.1, h.2.2.2⟩

/-- Calling `T` leaves the entry of every other peer as it was. -/
theorem startVideoCall_mapGet_ne (b : Browser) (s : Client) (T Q : String) (h : Q ≠ T) :
    mapGet (startVideoCall b s T).peerConnections Q = mapGet s.peerConnections Q := by
  by_cases hself : T = s.username
  · have : startVideoCall b s T = s := by unfold startVideoCall; simp [hself]
    rw [this]
  · by_cases hhas : mapHas s.peerConnections T = true
    · have : startVideoCall b s T = s := by unfold startVideoCall; simp [hhas]
      rw [this]
    · have hno : mapHas s.peerConnections T = false := by simpa using hhas
      obtain ⟨pc, _, _, heq⟩ := startVideoCall_peerConnections b s T hself hno
      rw [heq, mapGet_mapSet_ne _ _ _ _ h]

theorem closePeerConnection_untouched (s : Client) (P Q : String) (h : Q ≠ P) :
    PeerUntouched Q s (closePeerConnection s P) := by
  unfold PeerUntouched closePeerConnection
  cases mapGet s.peerConnections P with
  | none => simp
  | some pc => simp [mapGet_mapDelete_ne _ _ _ h, mem_setDelete, h]

/-- C14.  For distinct peers `P` and `Q` and every client state, handling a `webrtc_offer`,
`webrtc_answer`, `webrtc_candidate` or `user_left` message from `P`, or calling
`startVideoCall(P)` or `closePeerConnection(P)`, whatever the browser outcomes, leaves `Q`
as it was: same entry in `peerConnections` (presence and connection object), same
membership in `onlineUsers` and in `broadcastingUsers`. -/
theorem other_sessions_untouched (b : Browser) (s : Client) (P Q : String) (x : String)
    (h : Q ≠ P) :
    PeerUntouched Q s (handleMessage b s (Message.webrtc_offer P x)) ∧
    PeerUntouched Q s (handleMessage b s (Message.webrtc_answer P x)) ∧
    PeerUntouched Q s (handleMessage b s (Message.webrtc_candidate P x)) ∧
    PeerUntouched Q s (handleMessage b s (Message.user_left P)) ∧
    PeerUntouched Q s (startVideoCall b s P) ∧
    PeerUntouched Q s (closePeerConnection s P) := by
  refine ⟨?_, ?_, ?_, ?_, ?_, closePeerConnection_untouched s P Q h⟩
  · obtain ⟨pc, _, _, _, heq⟩ := handleWebRTCOffer_peerConnections b s P x
    obtain ⟨h1, h2⟩ := handleWebRTCOffer_users b s P x
    simp only [PeerUntouched, handleMessage]
    rw [heq, h1, h2, mapGet_mapSet_ne _ _ _ _ h]
    simp
  · simp only [PeerUntouched, handleMessage, handleWebRTCAnswer]
    cases mapGet s.peerConnections P with
    | none => simp
    | some pc =>
      cases b.setRemoteDescription with
      | error m => simp [addSystemMessage]
      | ok _ => simp [storePc, mapGet_mapSet_ne _ _ _ _ h]
  · simp only [PeerUntouched, handleMessage, handleWebRTCCandidate]
    cases mapGet s.peerConnections P with
    | none => simp
    | some pc =>
      by_cases hr : pc.remoteDescription.isSome = true
      · cases hb : b.addIceCandidate with
        | error m => simp [hr]
        | ok _ => simp [hr, storePc, mapGet_mapSet_ne _ _ _ _ h]
      · simp [hr]
  · have hc := closePeerConnection_untouched
      (addSystemMessage (removeUser s P) (P ++ " покинул чат")) P Q h
    simp only [PeerUntouched, handleMessage] at hc ⊢
    obtain ⟨c1, c2, c3⟩ := hc
    refine ⟨c1.trans rfl, c2.trans ?_, c3.trans ?_⟩
    · simp [addSystemMessage, removeUser, mem_setDelete, h]
    · simp [addSystemMessage, removeUser, mem_setDelete, h]
  · obtain ⟨h1, h2, _, _⟩ := startVideoCall_users b s P
    simp only [PeerUntouched]
    rw [startVideoCall_mapGet_ne b s P Q h, h1, h2]
    simp

/-- Witness for C14: in `aliceWatchingBob`, messages and calls that concern `carol` leave
`bob` as it was. -/
theorem other_sessions_untouched_witness :
    "bob" ≠ "carol" ∧
    PeerUntouched "bob" aliceWatchingBob
      (handleMessage (Browser.remoteFails "boom") aliceWatchingBob
        (Message.webrtc_offer "carol" "offerC")) ∧
    PeerUntouched "bob" aliceWatchingBob
      (startVideoCall (Browser.remoteFails "boom") aliceWatchingBob "carol") :=
  ⟨by decide,
    (other_sessions_untouched (Browser.remoteFails "boom") aliceWatchingBob "carol" "bob"
      "offerC" (by decide)).1,
    (other_sessions_untouched (Browser.remoteFails "boom") aliceWatchingBob "carol" "bob"
      "offerC" (by decide)).2.2.2.2.1⟩

/-! ## Lemmas on `startVideoCall` and on the sweep -/

theorem startVideoCall_noop_self (b : Browser) (s : Client) (T : String)
    (h : T = s.username) : startVideoCall b s T = s := by
  unfold startVideoCall
  simp [h]

theorem startVideoCall_noop_has (b : Browser) (s : Client) (T : String)
    (h : mapHas s.peerConnections T = true) : startVideoCall b s T = s := by
  unfold startVideoCall
  simp [h]

/-- The envelopes that `startVideoCall(T)` adds: none, or one offer addressed to `T`, and
then `T` is not the own username and had no entry. -/
theorem startVideoCall_sent (b : Browser) (s : Client) (T : String) :
    ∃ extra, (startVideoCall b s T).sent = s.sent ++ extra ∧
      ∀ e ∈ extra, e.type = "webrtc_offer" ∧ e.target_user = T ∧ T ≠ s.username ∧
        mapHas s.peerConnections T = false := by
  by_cases hself : T = s.username
  · exact ⟨[], by rw [startVideoCall_noop_self b s T hself]; simp, by simp⟩
  · by_cases hhas : mapHas s.peerConnections T = true
    · exact ⟨[], by rw [startVideoCall_noop_has b s T hhas]; simp, by simp⟩
    · have hno : mapHas s.peerConnections T = false := by simpa using hhas
      unfold startVideoCall
      simp only [hself, hno, if_false, createPeerConnection_fst, createPeerConnection_snd]
      cases b.createOffer with
      | error m => exact ⟨[], by simp [addSystemMessage], by simp⟩
      | ok offer =>
        cases b.setLocalDescription with
        | error m => exact ⟨[], by simp [addSystemMessage], by simp⟩
        | ok _ =>
          by_cases hc : s.isConnected = true
          · refine ⟨[{ type := "webrtc_offer", target_user := T, webrtc_data := offer }], ?_, ?_⟩
            · simp [sendWebRTCMessage, storePc, hc]
            · intro e he
              simp only [List.mem_singleton] at he
              subst he
              simp [hself]
          · exact ⟨[], by simp [sendWebRTCMessage, storePc, hc], by simp⟩

theorem startVideoCall_mapGet_of_has (b : Browser) (s : Client) (T u : String)
    (h : mapHas s.peerConnections u = true) :
    mapGet (startVideoCall b s T).peerConnections u = mapGet s.peerConnections u := by
  by_cases hut : u = T
  · subst hut
    rw [startVideoCall_noop_has b s u h]
  · exact startVideoCall_mapGet_ne b s T u hut

theorem startVideoCall_mapHas (b : Browser) (s : Client) (T u : String) :
    mapHas (startVideoCall b s T).peerConnections u = true ↔
      (mapHas s.peerConnections u = true ∨ (u = T ∧ T ≠ s.username)) := by
  by_cases hself : T = s.username
  · rw [startVideoCall_noop_self b s T hself]
    simp [hself]
  · by_cases hhas : mapHas s.peerConnections T = true
    · rw [startVideoCall_noop_has b s T hhas]
      constructor
      · exact fun h => Or.inl h
      · rintro (h | ⟨h, _⟩)
        · exact h
        · rw [h]; exact hhas
    · have hno : mapHas s.peerConnections T = false := by simpa using hhas
      obtain ⟨pc, _, _, heq⟩ := startVideoCall_peerConnections b s T hself hno
      by_cases hut : u = T
      · subst hut
        simp [heq, mapHas, mapGet_mapSet_self, hself]
      · simp [heq, mapHas, mapGet_mapSet_ne _ _ _ _ hut, hut]

theorem sweepStep_eq (bs : String → Browser) (acc : Client) (u : String) :
    sweepStep bs acc u = startVideoCall (bs u) acc u := by
  unfold sweepStep
  by_cases hself : u = acc.username
  · simp [hself, startVideoCall_noop_self (bs acc.username) acc acc.username rfl]
  · by_cases hhas : mapHas acc.peerConnections u = true
    · simp [hhas, startVideoCall_noop_has (bs u) acc u hhas]
    · simp [hself, hhas]

theorem runTimer_sweep (bs : String → Browser) (s : Client) :
    runTimer bs s Timer.sweep = s.onlineUsers.foldl (sweepStep bs) s := rfl

/-- What a run of the sweep callback over the names `l` does, from the state `acc`. -/
theorem sweep_foldl (bs : String → Browser) (l : List String) (acc : Client) :
    (l.foldl (sweepStep bs) acc).username = acc.username ∧
    (l.foldl (sweepStep bs) acc).isConnected = acc.isConnected ∧
    (l.foldl (sweepStep bs) acc).onlineUsers = acc.onlineUsers ∧
    (l.foldl (sweepStep bs) acc).broadcastingUsers = acc.broadcastingUsers ∧
    (∀ u, mapHas acc.peerConnections u = true →
      mapGet (l.foldl (sweepStep bs) acc).peerConnections u = mapGet acc.peerConnections u) ∧
    (∀ u, mapHas (l.foldl (sweepStep bs) acc).peerConnections u = true ↔
      (mapHas acc.peerConnections u = true ∨ (u ∈ l ∧ u ≠ acc.username))) ∧
    (∃ extra, (l.foldl (sweepStep bs) acc).sent = acc.sent ++ extra ∧
      ∀ e ∈ extra, e.type = "webrtc_offer" ∧ e.target_user ∈ l ∧
        e.target_user ≠ acc.username ∧ mapHas acc.peerConnections e.target_user = false) := by
  induction l generalizing acc with
  | nil => exact ⟨rfl, rfl, rfl, rfl, fun _ _ => rfl, by simp, ⟨[], by simp, by simp⟩⟩
  | cons x rest ih =>
    obtain ⟨i1, i2, i3, i4, i5, i6, extra2, i7, i8⟩ := ih (sweepStep bs acc x)
    obtain ⟨u1, u2, u3, u4⟩ := startVideoCall_users (bs x) acc x
    obtain ⟨extra1, e1, e2⟩ := startVideoCall_sent (bs x) acc x
    rw [sweepStep_eq] at i1 i2 i3 i4 i5 i6 i7 i8
    simp only [List.foldl_cons, sweepStep_eq bs acc x]
    refine ⟨i1.trans u3, i2.trans u4, i3.trans u1, i4.trans u2, ?_, ?_, ?_⟩
    · intro u hu
      have h1 := startVideoCall_mapGet_of_has (bs x) acc x u hu
      have h2 : mapHas (startVideoCall (bs x) acc x).peerConnections u = true :=
        (startVideoCall_mapHas (bs x) acc x u).mpr (Or.inl hu)
      rw [i5 u h2, h1]
    · intro u
      rw [i6 u, startVideoCall_mapHas (bs x) acc x u, u3]
      simp only [List.mem_cons]
      constructor
      · rintro ((h | ⟨h, h'⟩) | ⟨h, h'⟩)
        · exact Or.inl h
        · exact Or.inr ⟨Or.inl h, h ▸ h'⟩
        · exact Or.inr ⟨Or.inr h, h'⟩
      · rintro (h | ⟨h | h, h'⟩)
        · exact Or.inl (Or.inl h)
        · exact Or.inl (Or.inr ⟨h, h ▸ h'⟩)
        · exact Or.inr ⟨h, h'⟩
    · refine ⟨extra1 ++ extra2, by rw [i7, e1, List.append_assoc], ?_⟩
      intro e he
      rcases List.mem_append.mp he with he | he
      · obtain ⟨a, b, c, d⟩ := e2 e he
        exact ⟨a, by rw [b]; exact List.mem_cons_self _ _, by rw [b]; exact c,
          by rw [b]; exact d⟩
      · obtain ⟨a, b, c, d⟩ := i8 e he
        refine ⟨a, List.mem_cons_of_mem _ b, by rw [← u3]; exact c, ?_⟩
        cases hh : mapHas acc.peerConnections e.target_user with
        | false => rfl
        | true =>
          have := (startVideoCall_mapHas (bs x) acc x e.target_user).mpr (Or.inl hh)
          rw [this] at d
          exact absurd d (by simp)

/-! ## Lemmas on `addTracksToExistingConnections` -/

theorem addTracksToExistingConnections_eq (bs : String → Browser) (s : Client)
    (tracks : List Track) (h : s.localStream = some tracks) :
    addTracksToExistingConnections bs s =
      s.peerConnections.foldl (renegotiateStep bs tracks) s := by
  unfold addTracksToExistingConnections
  rw [h]
  rfl

theorem renegotiateStep_eq (bs : String → Browser) (tracks : List Track) (acc : Client)
    (e : String × PeerConnection) :
    renegotiateStep bs tracks acc e =
      { acc with
        peerConnections := mapSet acc.peerConnections e.1 (renegotiated (bs e.1) tracks e.2),
        sent := acc.sent ++
          (if acc.isConnected then
            ((renegotiationOffer (bs e.1)).map
              (fun o => ({ type := "webrtc_offer", target_user := e.1,
                           webrtc_data := o } : Envelope))).toList
          else []) } := by
  unfold renegotiateStep renegotiateConnection renegotiated renegotiationOffer
  cases (bs e.1).createOffer with
  | error m => simp [storePc]
  | ok offer =>
    cases (bs e.1).setLocalDescription with
    | error m => simp [storePc]
    | ok _ =>
      by_cases hc : acc.isConnected = true <;>
        simp [storePc, sendWebRTCMessage, hc, mapSet_mapSet]

/-- The state after the callback has run over the entries `l`, from the state `acc`. -/
theorem renegotiate_foldl (bs : String → Browser) (tracks : List Track)
    (l : List (String × PeerConnection)) (acc : Client) :
    l.foldl (renegotiateStep bs tracks) acc =
      { acc with
        peerConnections :=
          l.foldl (fun m e => mapSet m e.1 (renegotiated (bs e.1) tracks e.2))
            acc.peerConnections,
        sent := acc.sent ++
          (if acc.isConnected then
            l.filterMap (fun e => (renegotiationOffer (bs e.1)).map
              (fun o => ({ type := "webrtc_offer", target_user := e.1,
                           webrtc_data := o } : Envelope)))
          else []) } := by
  induction l generalizing acc with
  | nil => simp
  | cons e rest ih =>
    rw [List.foldl_cons, ih, renegotiateStep_eq]
    by_cases hc : acc.isConnected = true
    · cases ho : renegotiationOffer (bs e.1) <;> simp [List.filterMap_cons, ho, hc]
    · simp [hc]

theorem mapGet_foldl_mapSet_of_not_mem (f : String × PeerConnection → PeerConnection)
    (l m : List (String × PeerConnection)) (P : String) (h : P ∉ l.map Prod.fst) :
    mapGet (l.foldl (fun m e => mapSet m e.1 (f e)) m) P = mapGet m P := by
  induction l generalizing m with
  | nil => rfl
  | cons e rest ih =>
    simp only [List.map_cons, List.mem_cons, not_or] at h
    rw [List.foldl_cons, ih _ h.2, mapGet_mapSet_ne _ _ _ _ h.1]

theorem mapGet_foldl_mapSet_of_mapGet (f : String × PeerConnection → PeerConnection)
    (l m : List (String × PeerConnection)) (P : String) (pc : PeerConnection)
    (hkeys : (l.map Prod.fst).Nodup) (h : mapGet l P = some pc) :
    mapGet (l.foldl (fun m e => mapSet m e.1 (f e)) m) P = some (f (P, pc)) := by
  induction l generalizing m with
  | nil => simp [mapGet] at h
  | cons e rest ih =>
    obtain ⟨k, v⟩ := e
    simp only [List.map_cons, List.nodup_cons] at hkeys
    rw [List.foldl_cons]
    by_cases hk : k = P
    · subst hk
      simp only [mapGet, if_true, Option.some.injEq] at h
      subst h
      rw [mapGet_foldl_mapSet_of_not_mem f rest _ k hkeys.1, mapGet_mapSet_self]
    · simp only [mapGet, hk, if_false] at h
      exact ih _ hkeys.2 h

theorem mapGet_eq_none_of_not_has (m : List (String × PeerConnection)) (k : String)
    (h : ¬ mapHas m k = true) : mapGet m k = none := by
  unfold mapHas at h
  cases hg : mapGet m k with
  | none => rfl
  | some v => simp [hg] at h

theorem startVideo_ok_eq (bs : String → Browser) (s : Client) (tracks : List Track) :
    startVideo bs s (Except.ok tracks) =
      { s with
        localStream := some tracks,
        broadcastingUsers := setAdd s.broadcastingUsers s.username,
        messages := s.messages ++ [MessageEl.system
          "Демонстрация экрана включена. Кликните на пользователя для звонка."],
        peerConnections :=
          s.peerConnections.foldl (fun m e => mapSet m e.1 (renegotiated (bs e.1) tracks e.2))
            s.peerConnections,
        sent := s.sent ++
          (if s.isConnected then
            s.peerConnections.filterMap (fun e => (renegotiationOffer (bs e.1)).map
              (fun o => ({ type := "webrtc_offer", target_user := e.1,
                           webrtc_data := o } : Envelope)))
          else []),
        timers := s.timers ++ [Timer.sweep] } := by
  simp only [startVideo]
  rw [addTracksToExistingConnections_eq bs _ tracks rfl, renegotiate_foldl]
  simp [addSystemMessage]

/-! ## C15: the own username as a call target -/

/-- C15.  `startVideoCall` with the own username returns the client state as it was: no entry
is created and nothing is sent.  None of the automatic paths targets the own username:
the timers added by a `user_joined` message, by a `users_list` message (whatever the
snapshot) and by `startVideo` include no call to the own username, and the sweep that
`startVideo` schedules, whatever `onlineUsers` holds, leaves the entry under the own username
as it was and sends no envelope addressed to the own username. -/
theorem own_username_never_called (b : Browser) (bs : String → Browser) (s : Client) :
    (startVideoCall b s s.username = s ∧
      mapGet (startVideoCall b s s.username).peerConnections s.username =
        mapGet s.peerConnections s.username ∧
      (startVideoCall b s s.username).sent = s.sent) ∧
    (∀ P, ∃ added, (handleMessage b s (Message.user_joined P)).timers = s.timers ++ added ∧
      Timer.call s.username ∉ added) ∧
    (∀ content, ∃ added,
      (handleMessage b s (Message.users_list content)).timers = s.timers ++ added ∧
      Timer.call s.username ∉ added) ∧
    (∀ media, ∃ added, (startVideo bs s media).timers = s.timers ++ added ∧
      Timer.call s.username ∉ added) ∧
    mapGet (runTimer bs s Timer.sweep).peerConnections s.username =
      mapGet s.peerConnections s.username ∧
    (∃ extra, (runTimer bs s Timer.sweep).sent = s.sent ++ extra ∧
      ∀ e ∈ extra, e.target_user ≠ s.username) := by
  refine ⟨?_, ?_, ?_, ?_, ?_, ?_⟩
  · rw [startVideoCall_noop_self b s s.username rfl]
    exact ⟨rfl, rfl, rfl⟩
  · intro P
    by_cases hg : (s.localStream.isSome && decide (P ≠ s.username)) = true
    · refine ⟨[Timer.call P], ?_, ?_⟩
      · simp only [handleMessage, addSystemMessage, addUser, hg, if_true]
      · simp only [Bool.and_eq_true, decide_eq_true_eq] at hg
        simp only [List.mem_singleton, Timer.call.injEq]
        exact fun h => hg.2 h.symm
    · refine ⟨[], ?_, by simp⟩
      simp only [handleMessage, addSystemMessage, addUser, hg]
      simp
  · intro content
    cases content with
    | invalid => exact ⟨[], by simp [handleMessage, handleUsersList], by simp⟩
    | notArray => exact ⟨[], by simp [handleMessage, handleUsersList], by simp⟩
    | array users =>
      by_cases hl : s.localStream.isSome = true
      · refine ⟨(users.filter (fun u =>
            decide (u ≠ s.username) && !mapHas s.peerConnections u)).map Timer.call, ?_, ?_⟩
        · simp only [handleMessage, handleUsersList, hl, if_true]
        · simp [List.mem_map, List.mem_filter]
      · refine ⟨[], ?_, by simp⟩
        simp only [handleMessage, handleUsersList, hl]
        simp
  · intro media
    cases media with
    | error e => exact ⟨[], by simp [startVideo, addSystemMessage], by simp⟩
    | ok tracks => exact ⟨[Timer.sweep], by rw [startVideo_ok_eq], by simp⟩
  · obtain ⟨_, _, _, _, h5, h6, _⟩ := sweep_foldl bs s.onlineUsers s
    rw [runTimer_sweep]
    cases hh : mapHas s.peerConnections s.username with
    | true => exact h5 _ hh
    | false =>
      have hno : ¬ mapHas (s.onlineUsers.foldl (sweepStep bs) s).peerConnections
          s.username = true := by
        rw [h6 s.username]
        simp [hh]
      rw [mapGet_eq_none_of_not_has _ _ hno, mapGet_eq_none_of_not_has _ _ (by simp [hh])]
  · obtain ⟨_, _, _, _, _, _, extra, h7, h8⟩ := sweep_foldl bs s.onlineUsers s
    rw [runTimer_sweep]
    exact ⟨extra, h7, fun e he => (h8 e he).2.2.1⟩

/-- Witness for C15: `aliceWatchingBob` has its own username in `onlineUsers`; a call to the
own username changes nothing and the sweep sends nothing to it. -/
theorem own_username_never_called_witness :
    aliceWatchingBob.username ∈ aliceWatchingBob.onlineUsers ∧
    startVideoCall (Browser.ok "offerA" "answerA") aliceWatchingBob aliceWatchingBob.username =
      aliceWatchingBob ∧
    mapGet (runTimer (fun _ => Browser.ok "offerA" "answerA") aliceWatchingBob
      Timer.sweep).peerConnections aliceWatchingBob.username =
      mapGet aliceWatchingBob.peerConnections aliceWatchingBob.username :=
  ⟨by decide,
    (own_username_never_called (Browser.ok "offerA" "answerA")
      (fun _ => Browser.ok "offerA" "answerA") aliceWatchingBob).1.1,
    (own_username_never_called (Browser.ok "offerA" "answerA")
      (fun _ => Browser.ok "offerA" "answerA") aliceWatchingBob).2.2.2.2.1⟩

/-! ## C16: outbound envelopes -/

/-- C16.  While the client is connected, a successful `startVideoCall(T)` (target other than
the own username, without an entry, offer created and set) sends exactly one envelope, a
`webrtc_offer` with `target_user = T`; a successful `handleWebRTCOffer` for an offer from `P`
sends exactly one envelope, a `webrtc_answer` with `target_user = P`.  The `onicecandidate`
handler of the connection built for `P` sends, for a candidate, one `webrtc_candidate`
envelope with `target_user = P` when connected and nothing otherwise, and nothing for the
event without a candidate.  While the client is not connected, `sendWebRTCMessage` leaves
the state, and so `sent`, as it was. -/
theorem outbound_envelopes_single_and_addressed (b : Browser) (s : Client) (T P : String)
    (offer answer remoteOffer : Sdp) (c : Candidate) :
    (s.isConnected = true → T ≠ s.username → mapHas s.peerConnections T = false →
      b.createOffer = Except.ok offer → b.setLocalDescription = Except.ok () →
      (startVideoCall b s T).sent =
        s.sent ++ [{ type := "webrtc_offer", target_user := T, webrtc_data := offer }]) ∧
    (s.isConnected = true → b.setRemoteDescription = Except.ok () →
      b.createAnswer = Except.ok answer → b.setLocalDescription = Except.ok () →
      (handleWebRTCOffer b s P remoteOffer).sent =
        s.sent ++ [{ type := "webrtc_answer", target_user := P, webrtc_data := answer }]) ∧
    (newPeerConnection s P).peer = P ∧
    (s.isConnected = true → (onicecandidate s P (some c)).sent =
      s.sent ++ [{ type := "webrtc_candidate", target_user := P, webrtc_data := c }]) ∧
    (s.isConnected = false → (onicecandidate s P (some c)).sent = s.sent) ∧
    (onicecandidate s P none).sent = s.sent ∧
    (s.isConnected = false → ∀ ty target data, sendWebRTCMessage s ty target data = s) := by
  refine ⟨?_, ?_, rfl, ?_, ?_, rfl, ?_⟩
  · intro hc hself hno hoffer hlocal
    unfold startVideoCall
    simp [hself, hno, hoffer, hlocal, createPeerConnection, storePc, sendWebRTCMessage, hc]
  · intro hc hremote hanswer hlocal
    unfold handleWebRTCOffer
    simp [hremote, hanswer, hlocal, createPeerConnection, storePc, sendWebRTCMessage, hc]
  · intro hc
    simp [onicecandidate, sendWebRTCMessage, hc]
  · intro hc
    simp [onicecandidate, sendWebRTCMessage, hc]
  · intro hc ty target data
    simp [sendWebRTCMessage, hc]

/-- Witness for C16: a call from `aliceLive` to `bob`, and a candidate event while the client
`Client.init` is not connected. -/
theorem outbound_envelopes_single_and_addressed_witness :
    (aliceLive.isConnected = true ∧ "bob" ≠ aliceLive.username ∧
      mapHas aliceLive.peerConnections "bob" = false ∧
      (startVideoCall (Browser.ok "offerA" "answerA") aliceLive "bob").sent =
        aliceLive.sent ++
          [{ type := "webrtc_offer", target_user := "bob", webrtc_data := "offerA" }]) ∧
    (Client.init.isConnected = false ∧
      (onicecandidate Client.init "bob" (some "c1")).sent = Client.init.sent) :=
  ⟨⟨by decide, by decide, by decide,
      (outbound_envelopes_single_and_addressed (Browser.ok "offerA" "answerA") aliceLive "bob"
        "bob" "offerA" "answerA" "offerB" "c1").1 (by decide) (by decide) (by decide) rfl rfl⟩,
    ⟨by decide,
      (outbound_envelopes_single_and_addressed (Browser.ok "offerA" "answerA") Client.init
        "bob" "bob" "offerA" "answerA" "offerB" "c1").2.2.2.2.1 (by decide)⟩⟩

/-! ## C17: `onDisconnected` -/

/-- C17.  After `onDisconnected` the map `peerConnections` is empty, every connection it
held has been closed, `onlineUsers` and `broadcastingUsers` are empty, `isConnected` is
false and `ws` is null. -/
theorem onDisconnected_tears_down_everything (s : Client) :
    (onDisconnected s).peerConnections = [] ∧
    (∀ e ∈ s.peerConnections,
      e.2.close ∈ (onDisconnected s).detached ∧
      e.2.close.connectionState = ConnectionState.closed) ∧
    (onDisconnected s).onlineUsers = [] ∧
    (onDisconnected s).broadcastingUsers = [] ∧
    (onDisconnected s).isConnected = false ∧
    (onDisconnected s).ws = false := by
  refine ⟨rfl, ?_, rfl, rfl, rfl, rfl⟩
  intro e he
  refine ⟨?_, rfl⟩
  simp only [onDisconnected, addSystemMessage, List.mem_append]
  exact Or.inr (List.mem_map.mpr ⟨e, he, rfl⟩)

/-- Witness for C17: `onDisconnected` on `aliceWatchingBob` closes `bobFirst`. -/
theorem onDisconnected_tears_down_everything_witness :
    ("bob", bobFirst) ∈ aliceWatchingBob.peerConnections ∧
    bobFirst.close ∈ (onDisconnected aliceWatchingBob).detached :=
  ⟨by decide,
    ((onDisconnected_tears_down_everything aliceWatchingBob).2.1 ("bob", bobFirst)
      (by decide)).1⟩

/-! ## C18: `user_joined` -/

/-- C18.  After a `user_joined` message for `P`, `P` is in `onlineUsers` and every other name
is in `onlineUsers` exactly if it was before.  A call `startVideoCall(P)` is scheduled (one
timer whose callback is `startVideoCall(P)`) if local media is active and `P` differs from
the own username, and no timer is added otherwise. -/
theorem user_joined_adds_and_schedules (b : Browser) (s : Client) (P : String) :
    P ∈ (handleMessage b s (Message.user_joined P)).onlineUsers ∧
    (∀ u, u ≠ P →
      (u ∈ (handleMessage b s (Message.user_joined P)).onlineUsers ↔ u ∈ s.onlineUsers)) ∧
    ((s.localStream.isSome = true ∧ P ≠ s.username) →
      (handleMessage b s (Message.user_joined P)).timers = s.timers ++ [Timer.call P]) ∧
    (¬ (s.localStream.isSome = true ∧ P ≠ s.username) →
      (handleMessage b s (Message.user_joined P)).timers = s.timers) ∧
    (∀ (bs : String → Browser) (t : Client),
      runTimer bs t (Timer.call P) = startVideoCall (bs P) t P) := by
  have honline : (handleMessage b s (Message.user_joined P)).onlineUsers =
      setAdd s.onlineUsers P := by
    simp only [handleMessage, addSystemMessage, addUser]
    split <;> rfl
  refine ⟨?_, ?_, ?_, ?_, fun _ _ => rfl⟩
  · rw [honline]
    simp [mem_setAdd]
  · intro u hu
    rw [honline]
    simp [mem_setAdd, hu]
  · rintro ⟨h1, h2⟩
    simp [handleMessage, addSystemMessage, addUser, h1, h2]
  · intro h
    have hg : ¬ ((s.localStream.isSome && decide (P ≠ s.username)) = true) := by
      simpa [Bool.and_eq_true] using h
    simp only [handleMessage, addSystemMessage, addUser, hg]
    simp

/-- Witness for C18: `user_joined` for `bob` at `aliceLive`, which shares local media. -/
theorem user_joined_adds_and_schedules_witness :
    (aliceLive.localStream.isSome = true ∧ "bob" ≠ aliceLive.username) ∧
    (handleMessage (Browser.ok "offerA" "answerA") aliceLive
      (Message.user_joined "bob")).timers = aliceLive.timers ++ [Timer.call "bob"] :=
  ⟨by decide,
    (user_joined_adds_and_schedules (Browser.ok "offerA" "answerA") aliceLive "bob").2.2.1
      (by decide)⟩

/-! ## C19: renegotiation and sweep when local media starts -/

theorem startVideoCall_sent_of_ok (b : Browser) (s : Client) (T : String) (offer : Sdp)
    (hc : s.isConnected = true) (hself : T ≠ s.username)
    (hno : mapHas s.peerConnections T = false)
    (hoffer : b.createOffer = Except.ok offer) (hlocal : b.setLocalDescription = Except.ok ()) :
    (startVideoCall b s T).sent =
      s.sent ++ [{ type := "webrtc_offer", target_user := T, webrtc_data := offer }] := by
  unfold startVideoCall
  simp [hself, hno, hoffer, hlocal, createPeerConnection, storePc, sendWebRTCMessage, hc]

/-- While connected and with working browser calls, the sweep over `l` sends an offer to
every name of `l` that is not the own username and has no entry. -/
theorem sweep_foldl_offers (bs : String → Browser) (offer : String → Sdp)
    (hok : ∀ u, (bs u).createOffer = Except.ok (offer u) ∧
      (bs u).setLocalDescription = Except.ok ())
    (l : List String) (acc : Client) (hc : acc.isConnected = true) (u : String)
    (hu : u ∈ l) (hself : u ≠ acc.username) (hno : mapHas acc.peerConnections u = false) :
    ({ type := "webrtc_offer", target_user := u, webrtc_data := offer u } : Envelope) ∈
      (l.foldl (sweepStep bs) acc).sent := by
  induction l generalizing acc with
  | nil => simp at hu
  | cons x rest ih =>
    rw [List.foldl_cons, sweepStep_eq]
    obtain ⟨_, _, u3, u4⟩ := startVideoCall_users (bs x) acc x
    by_cases hux : u = x
    · subst hux
      obtain ⟨_, _, _, _, _, _, extra, h7, _⟩ :=
        sweep_foldl bs rest (startVideoCall (bs u) acc u)
      rw [h7, startVideoCall_sent_of_ok (bs u) acc u (offer u) hc hself hno (hok u).1
        (hok u).2]
      simp
    · have hrest : u ∈ rest := by
        rcases List.mem_cons.mp hu with h | h
        · exact absurd h hux
        · exact h
      refine ih (startVideoCall (bs x) acc x) (u4.trans hc) hrest (by rw [u3]; exact hself) ?_
      cases hh : mapHas (startVideoCall (bs x) acc x).peerConnections u with
      | false => rfl
      | true =>
        rcases (startVideoCall_mapHas (bs x) acc x u).mp hh with h | ⟨h, _⟩
        · rw [hno] at h
          exact absurd h (by simp)
        · exact absurd h hux

theorem mapHas_of_mem (l : List (String × PeerConnection)) (k : String) (v : PeerConnection)
    (h : (k, v) ∈ l) : mapHas l k = true := by
  induction l with
  | nil => simp at h
  | cons e rest ih =>
    obtain ⟨k2, v2⟩ := e
    by_cases hk : k2 = k
    · simp [mapHas, mapGet, hk]
    · rcases List.mem_cons.mp h with h1 | h1
      · exact absurd (congrArg Prod.fst h1).symm hk
      · have := ih h1
        simpa [mapHas, mapGet, hk] using this

theorem renegotiationOffer_eq_some_iff (b : Browser) (o : Sdp) :
    renegotiationOffer b = some o ↔
      (b.createOffer = Except.ok o ∧ b.setLocalDescription = Except.ok ()) := by
  unfold renegotiationOffer
  cases b.createOffer with
  | error m => simp
  | ok offer =>
    cases b.setLocalDescription with
    | error m => simp
    | ok _ => simp

/-- Every envelope sent by the renegotiation of the entries `l` is an offer, addressed to a
peer with an entry, carrying the offer created for that peer. -/
theorem mem_renegotiation_envelopes (bs : String → Browser)
    (l : List (String × PeerConnection)) (e : Envelope)
    (h : e ∈ l.filterMap (fun a => (renegotiationOffer (bs a.1)).map
      (fun o => ({ type := "webrtc_offer", target_user := a.1, webrtc_data := o } : Envelope)))) :
    e.type = "webrtc_offer" ∧ mapHas l e.target_user = true ∧
      renegotiationOffer (bs e.target_user) = some e.webrtc_data := by
  obtain ⟨a, ha, hf⟩ := List.mem_filterMap.mp h
  obtain ⟨k, v⟩ := a
  cases ho : renegotiationOffer (bs k) with
  | none => simp [ho] at hf
  | some o =>
    simp only [ho, Option.map_some', Option.some.injEq] at hf
    subst hf
    exact ⟨rfl, mapHas_of_mem l k v ha, ho⟩

theorem countP_renegotiation_of_not_mem (bs : String → Browser)
    (l : List (String × PeerConnection)) (P : String) (h : P ∉ l.map Prod.fst) :
    (l.filterMap (fun a => (renegotiationOffer (bs a.1)).map
      (fun o => ({ type := "webrtc_offer", target_user := a.1,
                   webrtc_data := o } : Envelope)))).countP
        (fun e => decide (e.target_user = P)) = 0 := by
  induction l with
  | nil => rfl
  | cons a rest ih =>
    simp only [List.map_cons, List.mem_cons, not_or] at h
    have hne : ¬ a.1 = P := fun he => h.1 he.symm
    cases ho : renegotiationOffer (bs a.1) with
    | none => simp [List.filterMap_cons, ho, ih h.2]
    | some o => simp [List.filterMap_cons, ho, List.countP_cons, ih h.2, hne]

/-- With distinct keys, the renegotiation of the entries `l` sends one envelope addressed to
`P` if `P` has an entry and its offer is created and set, and none otherwise. -/
theorem countP_renegotiation (bs : String → Browser) (l : List (String × PeerConnection))
    (P : String) (hkeys : (l.map Prod.fst).Nodup) :
    (l.filterMap (fun a => (renegotiationOffer (bs a.1)).map
      (fun o => ({ type := "webrtc_offer", target_user := a.1,
                   webrtc_data := o } : Envelope)))).countP
        (fun e => decide (e.target_user = P)) =
      if mapHas l P = true ∧ (renegotiationOffer (bs P)).isSome = true then 1 else 0 := by
  induction l with
  | nil => simp [mapHas, mapGet]
  | cons a rest ih =>
    obtain ⟨k, v⟩ := a
    simp only [List.map_cons, List.nodup_cons] at hkeys
    by_cases hk : k = P
    · subst hk
      have hz := countP_renegotiation_of_not_mem bs rest k hkeys.1
      cases ho : renegotiationOffer (bs k) with
      | none => simp [List.filterMap_cons, ho, hz]
      | some o => simp [List.filterMap_cons, ho, List.countP_cons, hz, mapHas, mapGet]
    · have hhas : mapHas ((k, v) :: rest) P = mapHas rest P := by simp [mapHas, mapGet, hk]
      rw [hhas, ← ih hkeys.2]
      cases ho : renegotiationOffer (bs k) with
      | none => simp [List.filterMap_cons, ho]
      | some o => simp [List.filterMap_cons, ho, List.countP_cons, hk]

/-- C19, as stated, fails.  In `aliceWatchingBob` (connected, sharing two tracks, one session,
for `bob`) `createOffer` is rejected during the renegotiation: the tracks of the connection
for `bob` are the local tracks, but no envelope is sent.  In `aliceOfflineWithBob` (not
connected, one session, for `bob`) local media starts and every browser call succeeds: the
tracks are attached to the connection for `bob`, and again no envelope is sent. -/
theorem C19_counterexample :
    aliceWatchingBob.isConnected = true ∧
    aliceWatchingBob.localStream = some ["video", "audio"] ∧
    mapHas aliceWatchingBob.peerConnections "bob" = true ∧
    (mapGet (addTracksToExistingConnections (fun _ => Browser.offerFails "boom")
      aliceWatchingBob).peerConnections "bob").map (fun pc => pc.senders) =
      some ["video", "audio"] ∧
    (addTracksToExistingConnections (fun _ => Browser.offerFails "boom")
      aliceWatchingBob).sent = aliceWatchingBob.sent ∧
    aliceOfflineWithBob.isConnected = false ∧
    aliceOfflineWithBob.localStream = none ∧
    (mapGet aliceOfflineWithBob.peerConnections "bob").map (fun pc => pc.senders) = some [] ∧
    (mapGet (startVideo (fun _ => Browser.ok "offerA2" "answerA") aliceOfflineWithBob
      (Except.ok ["video", "audio"])).peerConnections "bob").map (fun pc => pc.senders) =
      some ["video", "audio"] ∧
    (startVideo (fun _ => Browser.ok "offerA2" "answerA") aliceOfflineWithBob
      (Except.ok ["video", "audio"])).sent = aliceOfflineWithBob.sent := by
  decide

/-- C19, amended.  Let the local stream hold `tracks` and let the keys of `peerConnections`
be distinct, as they are in a `Map`.  `addTracksToExistingConnections` leaves, for every
peer `P` with an entry, the same connection object with exactly `tracks` attached, whatever
the browser outcomes.  The envelopes it sends are offers addressed to peers with an entry,
each carrying the offer created for its peer; among them exactly one is addressed to `P` when
the client is connected, `P` has an entry, and the offer for `P` is created and set, and none
is addressed to `P` otherwise.  `startVideo` is the activation of the stream followed by
`addTracksToExistingConnections` and the scheduling of the sweep.  When the sweep runs, in
any state `t`, a peer has an entry afterwards exactly if it had one or is a member of
`onlineUsers` other than the own username; the entries that existed are as they were; every
envelope sent is an offer to a member of `onlineUsers` other than the own username that had
no entry; and, while connected with working browser calls, each such member is sent an
offer. -/
theorem renegotiation_and_sweep_on_media_start (bs : String → Browser) (s : Client)
    (tracks : List Track) (offer : String → Sdp)
    (hstream : s.localStream = some tracks)
    (hkeys : (s.peerConnections.map Prod.fst).Nodup) :
    (∀ P pc, mapGet s.peerConnections P = some pc →
      ∃ pc2, mapGet (addTracksToExistingConnections bs s).peerConnections P = some pc2 ∧
        pc2.senders = tracks ∧ pc2.id = pc.id) ∧
    (∃ extra, (addTracksToExistingConnections bs s).sent = s.sent ++ extra ∧
      (∀ e ∈ extra, e.type = "webrtc_offer" ∧ mapHas s.peerConnections e.target_user = true ∧
        (bs e.target_user).createOffer = Except.ok e.webrtc_data ∧
        (bs e.target_user).setLocalDescription = Except.ok ()) ∧
      (∀ P,
        ((s.isConnected = true ∧ mapHas s.peerConnections P = true ∧
            ∃ o, (bs P).createOffer = Except.ok o ∧
              (bs P).setLocalDescription = Except.ok ()) →
          extra.countP (fun e => decide (e.target_user = P)) = 1) ∧
        (¬ (s.isConnected = true ∧ mapHas s.peerConnections P = true ∧
            ∃ o, (bs P).createOffer = Except.ok o ∧
              (bs P).setLocalDescription = Except.ok ()) →
          extra.countP (fun e => decide (e.target_user = P)) = 0))) ∧
    (∀ s0 : Client, startVideo bs s0 (Except.ok tracks) =
      { addTracksToExistingConnections bs
          (addSystemMessage
            { s0 with localStream := some tracks,
                      broadcastingUsers := setAdd s0.broadcastingUsers s0.username }
            "Демонстрация экрана включена. Кликните на пользователя для звонка.") with
        timers := (addTracksToExistingConnections bs
          (addSystemMessage
            { s0 with localStream := some tracks,
                      broadcastingUsers := setAdd s0.broadcastingUsers s0.username }
            "Демонстрация экрана включена. Кликните на пользователя для звонка.")).timers ++
          [Timer.sweep] }) ∧
    (∀ t : Client,
      (∀ u, mapHas (runTimer bs t Timer.sweep).peerConnections u = true ↔
        (mapHas t.peerConnections u = true ∨ (u ∈ t.onlineUsers ∧ u ≠ t.username))) ∧
      (∀ u, mapHas t.peerConnections u = true →
        mapGet (runTimer bs t Timer.sweep).peerConnections u = mapGet t.peerConnections u) ∧
      (∃ extra, (runTimer bs t Timer.sweep).sent = t.sent ++ extra ∧
        ∀ e ∈ extra, e.type = "webrtc_offer" ∧ e.target_user ∈ t.onlineUsers ∧
          e.target_user ≠ t.username ∧ mapHas t.peerConnections e.target_user = false) ∧
      (t.isConnected = true →
        (∀ u, (bs u).createOffer = Except.ok (offer u) ∧
          (bs u).setLocalDescription = Except.ok ()) →
        ∀ u ∈ t.onlineUsers, u ≠ t.username → mapHas t.peerConnections u = false →
          ({ type := "webrtc_offer", target_user := u, webrtc_data := offer u } : Envelope) ∈
            (runTimer bs t Timer.sweep).sent)) := by
  refine ⟨?_, ?_, fun _ => rfl, ?_⟩
  · intro P pc hpc
    rw [addTracksToExistingConnections_eq bs s tracks hstream, renegotiate_foldl]
    refine ⟨renegotiated (bs P) tracks pc, ?_, ?_, ?_⟩
    · exact mapGet_foldl_mapSet_of_mapGet (fun e => renegotiated (bs e.1) tracks e.2)
        s.peerConnections s.peerConnections P pc hkeys hpc
    · unfold renegotiated
      cases renegotiationOffer (bs P) <;> rfl
    · unfold renegotiated
      cases renegotiationOffer (bs P) <;> rfl
  · have hsome : ∀ P, (renegotiationOffer (bs P)).isSome = true ↔
        ∃ o, (bs P).createOffer = Except.ok o ∧ (bs P).setLocalDescription = Except.ok () := by
      intro P
      rw [Option.isSome_iff_exists]
      exact exists_congr (fun o => renegotiationOffer_eq_some_iff (bs P) o)
    rw [addTracksToExistingConnections_eq bs s tracks hstream, renegotiate_foldl]
    by_cases hc : s.isConnected = true
    · refine ⟨s.peerConnections.filterMap (fun a => (renegotiationOffer (bs a.1)).map
          (fun o => ({ type := "webrtc_offer", target_user := a.1,
                       webrtc_data := o } : Envelope))), by simp only [hc, if_true], ?_, ?_⟩
      · intro e he
        obtain ⟨h1, h2, h3⟩ := mem_renegotiation_envelopes bs s.peerConnections e he
        exact ⟨h1, h2, (renegotiationOffer_eq_some_iff _ _).mp h3⟩
      · intro P
        rw [countP_renegotiation bs s.peerConnections P hkeys]
        constructor
        · rintro ⟨_, h2, h3⟩
          rw [if_pos ⟨h2, (hsome P).mpr h3⟩]
        · intro hn
          rw [if_neg]
          rintro ⟨h2, h3⟩
          exact hn ⟨hc, h2, (hsome P).mp h3⟩
    · refine ⟨[], by simp [hc], by simp, ?_⟩
      intro P
      exact ⟨fun h => absurd h.1 hc, fun _ => rfl⟩
  · intro t
    obtain ⟨_, _, _, _, h5, h6, h7⟩ := sweep_foldl bs t.onlineUsers t
    rw [runTimer_sweep]
    exact ⟨h6, h5, h7, fun hc hok u hu hself hno =>
      sweep_foldl_offers bs offer hok t.onlineUsers t hc u hu hself hno⟩

/-- Witness for C19: `aliceWatchingBob` shares two tracks and holds one session, for `bob`;
after the renegotiation the connection for `bob` is the same object with those tracks. -/
theorem renegotiation_and_sweep_on_media_start_witness :
    aliceWatchingBob.localStream = some ["video", "audio"] ∧
    (aliceWatchingBob.peerConnections.map Prod.fst).Nodup ∧
    mapGet aliceWatchingBob.peerConnections "bob" = some bobFirst ∧
    ∃ pc2, mapGet (addTracksToExistingConnections (fun _ => Browser.ok "offerA2" "answerA")
        aliceWatchingBob).peerConnections "bob" = some pc2 ∧
      pc2.senders = ["video", "audio"] ∧ pc2.id = bobFirst.id :=
  ⟨rfl, by decide, by decide,
    (renegotiation_and_sweep_on_media_start (fun _ => Browser.ok "offerA2" "answerA")
      aliceWatchingBob ["video", "audio"] (fun _ => "offerA2") rfl (by decide)).1
      "bob" bobFirst (by decide)⟩

/-! ## C20: broadcast flags and sessions -/

/-- C20: the code breaks the invariant in `stopVideo`.  In `aliceConnectedToBob` (the client
`alice` started sharing, accepted an offer from `bob`, and the connection reached
`connected`) the peer `bob` is marked broadcasting and has an entry.  After `stopVideo` the
map is empty and the connection has been closed, yet `bob`, who is not the own username, is
still in `broadcastingUsers`.  The sibling paths clear the flag: after
`closePeerConnection("bob")`, and after `onDisconnected`, `bob` is not marked. -/
theorem stopVideo_leaves_peer_marked_broadcasting :
    "bob" ∈ aliceConnectedToBob.broadcastingUsers ∧
    mapHas aliceConnectedToBob.peerConnections "bob" = true ∧
    "bob" ≠ (stopVideo aliceConnectedToBob).username ∧
    "bob" ∈ (stopVideo aliceConnectedToBob).broadcastingUsers ∧
    mapHas (stopVideo aliceConnectedToBob).peerConnections "bob" = false ∧
    (stopVideo aliceConnectedToBob).peerConnections = [] ∧
    "bob" ∉ (closePeerConnection aliceConnectedToBob "bob").broadcastingUsers ∧
    "bob" ∉ (onDisconnected aliceConnectedToBob).broadcastingUsers := by
  decide

end Thoth
